import Mathlib

/-!
# Domeneshop DNS provider: a shallow embedding of `provider/domeneshop.go`

The Go adapter talks to the registrar over HTTP.  Every outbound call goes through
`http.DefaultClient.Do`; here that call is a transition `Do` of an arbitrary world `σ`,
and every exchange (request, outcome) is appended to a log, so that statements about
"which calls are issued, in which order" are statements about that log.

Conventions
* a Go `error` is its message (`Error := String`), `nil` is `none`;
* a Go result `([]T, error)` is a pair `List T × Option Error`;
* `time.Duration` is an `Int` number of nanoseconds;
* `libdns.RelativeName` and the method `Record.RR()` belong to the libdns library and are
  parameters of the operations that use them.
-/

namespace Domeneshop

/-- A Go error value, identified with its message. -/
abbrev Error := String

/-- Go type `domain` (one element of the `/domains` listing). -/
structure domain where
  ID : Int
  Domain : String
deriving DecidableEq, Repr

/-- Go type `dnsRecord`; the field `Type` of the source is `Typ` here. -/
structure dnsRecord where
  ID : Int
  Host : String
  Typ : String
  Data : String
  TTL : Int
deriving DecidableEq, Repr

/-- The libdns value `libdns.RR`; `TTL` is a `time.Duration` in nanoseconds. -/
structure RR where
  Typ : String
  Name : String
  Data : String
  TTL : Int
deriving DecidableEq, Repr

/-- What `json.NewDecoder(resp.Body).Decode(&v)` yields for a target type. -/
inductive Decoded (α : Type) where
  | ok (v : α)
  | fail (err : Error)
deriving DecidableEq, Repr

/-- The four requests the adapter builds (method and URL of `http.NewRequestWithContext`). -/
inductive Request where
  /-- `GET /domains` -/
  | listDomains
  /-- `GET /domains/{domainID}/dns` -/
  | listRecords (domainID : Int)
  /-- `POST /domains/{domainID}/dns` with the JSON of `record` as body -/
  | createRecord (domainID : Int) (record : dnsRecord)
  /-- `DELETE /domains/{domainID}/dns/{recordID}` -/
  | deleteRecord (domainID : Int) (recordID : Int)
deriving DecidableEq, Repr

/-- The part of `*http.Response` the adapter reads: `StatusCode`, `Status`, the raw body
(`Body`, read by `io.ReadAll`) and what decoding the body as `[]domain` or `[]dnsRecord`
yields. -/
structure Response where
  StatusCode : Int
  Status : String
  Body : String
  domains : Decoded (List domain)
  records : Decoded (List dnsRecord)
deriving DecidableEq, Repr

/-- Outcome of `http.DefaultClient.Do(req)`: a response or a transport error. -/
inductive Outcome where
  | resp (r : Response)
  | err (e : Error)
deriving DecidableEq, Repr

/-- One logged exchange. -/
abbrev Exchange := Request × Outcome

/-- The world threaded through an operation, with the log of exchanges so far. -/
structure Run (σ : Type) where
  world : σ
  log : List Exchange

/-- Calling `http.DefaultClient.Do`: the world answers and moves on, the exchange is logged. -/
def send {σ : Type} (Do : Request → σ → Outcome × σ) (req : Request) (s : Run σ) :
    Outcome × Run σ :=
  let r := Do req s.world
  (r.1, { world := r.2, log := s.log ++ [(req, r.1)] })

/-- Go `strings.TrimSuffix`. -/
def TrimSuffix (s suffix : String) : String :=
  if suffix.data.isSuffixOf s.data then
    ⟨s.data.take (s.data.length - suffix.data.length)⟩
  else s

/-- `http.StatusOK`. -/
def StatusOK : Int := 200
/-- `http.StatusCreated`. -/
def StatusCreated : Int := 201
/-- `http.StatusNoContent`. -/
def StatusNoContent : Int := 204

/-- The scan `for _, d := range domains { if d.Domain == zone { return d.ID, nil } }`
followed by the final `return 0, fmt.Errorf("domain %s not found", zone)`. -/
def scanDomains (zone : String) : List domain → Int × Option Error
  | [] => (0, some ("domain " ++ zone ++ " not found"))
  | d :: ds => if d.Domain = zone then (d.ID, none) else scanDomains zone ds

/-- Go `Provider.getDomainID`. -/
def getDomainID {σ : Type} (Do : Request → σ → Outcome × σ) (zone : String) (s : Run σ) :
    (Int × Option Error) × Run σ :=
  let zone := TrimSuffix zone "."
  match send Do Request.listDomains s with
  | (Outcome.err e, s1) => ((0, some e), s1)
  | (Outcome.resp resp, s1) =>
    if resp.StatusCode ≠ StatusOK then
      ((0, some ("API request failed: " ++ resp.Status)), s1)
    else
      match resp.domains with
      | Decoded.fail e => ((0, some e), s1)
      | Decoded.ok domains => (scanDomains zone domains, s1)

/-- Go `Provider.getDNSRecords`. -/
def getDNSRecords {σ : Type} (Do : Request → σ → Outcome × σ) (domainID : Int) (s : Run σ) :
    (List dnsRecord × Option Error) × Run σ :=
  match send Do (Request.listRecords domainID) s with
  | (Outcome.err e, s1) => (([], some e), s1)
  | (Outcome.resp resp, s1) =>
    if resp.StatusCode ≠ StatusOK then
      (([], some ("API request failed: " ++ resp.Status)), s1)
    else
      match resp.records with
      | Decoded.fail e => (([], some e), s1)
      | Decoded.ok records => ((records, none), s1)

/-- The error `createDNSRecord` derives from the outcome of its call (`none` is `nil`). -/
def createError : Outcome → Option Error
  | Outcome.err e => some e
  | Outcome.resp resp =>
    if resp.StatusCode ≠ StatusCreated then
      some ("failed to create DNS record: " ++ resp.Status ++ " - " ++ resp.Body)
    else none

/-- Go `Provider.createDNSRecord`. -/
def createDNSRecord {σ : Type} (Do : Request → σ → Outcome × σ) (domainID : Int)
    (record : dnsRecord) (s : Run σ) : Option Error × Run σ :=
  let r := send Do (Request.createRecord domainID record) s
  (createError r.1, r.2)

/-- The error `deleteDNSRecord` derives from the outcome of its call (`none` is `nil`). -/
def deleteError : Outcome → Option Error
  | Outcome.err e => some e
  | Outcome.resp resp =>
    if resp.StatusCode ≠ StatusNoContent then
      some ("failed to delete DNS record: " ++ resp.Status)
    else none

/-- Go `Provider.deleteDNSRecord`. -/
def deleteDNSRecord {σ : Type} (Do : Request → σ → Outcome × σ) (domainID recordID : Int)
    (s : Run σ) : Option Error × Run σ :=
  let r := send Do (Request.deleteRecord domainID recordID) s
  (deleteError r.1, r.2)

/-! ### Numeric conversions -/

/-- Two's-complement wrap of an integer into the range of a Go `int64`. -/
def wrapInt64 (x : Int) : Int := (x + 2 ^ 63) % 2 ^ 64 - 2 ^ 63

/-- `time.Second`, in nanoseconds. -/
def Second : Int := 1000000000

/-- The quotient `a / b` rounded to the nearest integer, ties to the even one. -/
def roundHalfEven (a b : Nat) : Nat :=
  let q := a / b
  let r := a % b
  if 2 * r < b then q else if b < 2 * r then q + 1 else if q % 2 = 0 then q else q + 1

/-- Auxiliary for `ilog2`: at most `fuel` halvings. -/
def ilog2Aux : Nat → Nat → Nat
  | 0, _ => 0
  | fuel + 1, n => if n < 2 then 0 else ilog2Aux fuel (n / 2) + 1

/-- The position of the highest set bit of `n` (`0` for `n = 0`); `n` halvings always
suffice, so the fuel never runs out. -/
def ilog2 (n : Nat) : Nat := ilog2Aux n n

/-- The exponent `e` with `2 ^ e ≤ num / den < 2 ^ (e + 1)`, for `0 < num` and `0 < den`. -/
def floorLog2 (num den : Nat) : Int :=
  let e0 : Int := (ilog2 num : Int) - (ilog2 den : Int)
  if den * 2 ^ e0.toNat ≤ num * 2 ^ (-e0).toNat then e0 else e0 - 1

/-- The binary64 value nearest to the non-negative rational `num / den` (round to nearest,
ties to even, 53-bit significand), returned as a fraction `(n, d)` whose denominator is a
power of two.  Exponent range is not modelled: the values met here are far from it. -/
def round53 (num den : Nat) : Nat × Nat :=
  if num = 0 then (0, 1)
  else
    let e := floorLog2 num den
    let up := (52 - e).toNat
    let down := (e - 52).toNat
    let m := roundHalfEven (num * 2 ^ up) (den * 2 ^ down)
    (m * 2 ^ down, 2 ^ up)

/-- The float64 value of `Duration.Seconds()` for a non-negative duration `d`:
`sec := d / Second; nsec := d % Second; float64(sec) + float64(nsec)/1e9`
(the two conversions are exact, the division and the sum each round once). -/
def SecondsNat (d : Nat) : Nat × Nat :=
  let sec := d / 1000000000
  let nsec := d % 1000000000
  let frac := round53 nsec 1000000000
  round53 (sec * frac.2 + frac.1) frac.2

/-- Go `int(d.Seconds())` for a `time.Duration` `d`: the conversion truncates toward zero,
and both `Seconds` and the conversion are odd functions of `d`. -/
def durationSeconds (d : Int) : Int :=
  let x := SecondsNat d.natAbs
  d.sign * ((x.1 / x.2 : Nat) : Int)

/-! ### The four public operations -/

/-- The loop body of `GetRecords`: one registrar record as a `libdns.RR`;
`time.Duration(record.TTL) * time.Second` is an int64 product. -/
def toRR (record : dnsRecord) : RR :=
  { Typ := record.Typ, Name := record.Host, Data := record.Data,
    TTL := wrapInt64 (record.TTL * Second) }

/-- Go `Provider.GetRecords`. -/
def GetRecords {σ : Type} (Do : Request → σ → Outcome × σ) (zone : String) (s : Run σ) :
    (List RR × Option Error) × Run σ :=
  match getDomainID Do zone s with
  | ((_, some err), s1) => (([], some err), s1)
  | ((domainID, none), s1) =>
    match getDNSRecords Do domainID s1 with
    | ((_, some err), s2) => (([], some err), s2)
    | ((records, none), s2) => ((records.map toRR, none), s2)

/-- The record `AppendRecords` sends for an input record (`rr` is `record.RR()`):
built from the relative name and `int(rr.TTL.Seconds())`, then `TTL` replaced by 3600
when it is 0. -/
def toDNSRecord (RelativeName : String → String → String) (zone : String) (rr : RR) :
    dnsRecord :=
  let rec0 : dnsRecord :=
    { ID := 0, Host := RelativeName rr.Name zone, Typ := rr.Typ, Data := rr.Data,
      TTL := durationSeconds rr.TTL }
  if rec0.TTL = 0 then { rec0 with TTL := 3600 } else rec0

/-- The loop of `AppendRecords` over the remaining input, `created` being the slice built
so far. -/
def appendLoop {σ Record : Type} (Do : Request → σ → Outcome × σ)
    (RelativeName : String → String → String) (RRof : Record → RR) (zone : String)
    (domainID : Int) : List Record → List Record → Run σ →
    (List Record × Option Error) × Run σ
  | [], created, s => ((created, none), s)
  | record :: rest, created, s =>
    match createDNSRecord Do domainID (toDNSRecord RelativeName zone (RRof record)) s with
    | (some err, s1) => ((created, some err), s1)
    | (none, s1) =>
      appendLoop Do RelativeName RRof zone domainID rest (created ++ [record]) s1

/-- Go `Provider.AppendRecords`. -/
def AppendRecords {σ Record : Type} (Do : Request → σ → Outcome × σ)
    (RelativeName : String → String → String) (RRof : Record → RR) (zone : String)
    (records : List Record) (s : Run σ) : (List Record × Option Error) × Run σ :=
  match getDomainID Do zone s with
  | ((_, some err), s1) => (([], some err), s1)
  | ((domainID, none), s1) => appendLoop Do RelativeName RRof zone domainID records [] s1

/-- The inner loop of `SetRecords`: every existing record with this host and type is
deleted; the first failing delete ends the operation. -/
def setInner {σ : Type} (Do : Request → σ → Outcome × σ) (domainID : Int)
    (name typ : String) : List dnsRecord → Run σ → Option Error × Run σ
  | [], s => (none, s)
  | existingRec :: rest, s =>
    if existingRec.Host = name ∧ existingRec.Typ = typ then
      match deleteDNSRecord Do domainID existingRec.ID s with
      | (some err, s1) => (some err, s1)
      | (none, s1) => setInner Do domainID name typ rest s1
    else setInner Do domainID name typ rest s

/-- The outer loop of `SetRecords` over the input records. -/
def setLoop {σ Record : Type} (Do : Request → σ → Outcome × σ)
    (RelativeName : String → String → String) (RRof : Record → RR) (zone : String)
    (domainID : Int) (existing : List dnsRecord) : List Record → Run σ →
    Option Error × Run σ
  | [], s => (none, s)
  | record :: rest, s =>
    match setInner Do domainID (RelativeName (RRof record).Name zone) (RRof record).Typ
        existing s with
    | (some err, s1) => (some err, s1)
    | (none, s1) => setLoop Do RelativeName RRof zone domainID existing rest s1

/-- Go `Provider.SetRecords`. -/
def SetRecords {σ Record : Type} (Do : Request → σ → Outcome × σ)
    (RelativeName : String → String → String) (RRof : Record → RR) (zone : String)
    (records : List Record) (s : Run σ) : (List Record × Option Error) × Run σ :=
  match getDomainID Do zone s with
  | ((_, some err), s1) => (([], some err), s1)
  | ((domainID, none), s1) =>
    match getDNSRecords Do domainID s1 with
    | ((_, some err), s2) => (([], some err), s2)
    | ((existing, none), s2) =>
      match setLoop Do RelativeName RRof zone domainID existing records s2 with
      | (some err, s3) => (([], some err), s3)
      | (none, s3) => AppendRecords Do RelativeName RRof zone records s3

/-- The inner loop of `DeleteRecords` for one input record: the first existing record
equal in host, type and data is deleted and the loop is left (`break`).  The result says
whether a delete was issued and with which error. -/
def deleteInner {σ : Type} (Do : Request → σ → Outcome × σ) (domainID : Int)
    (name typ data : String) : List dnsRecord → Run σ → Option (Option Error) × Run σ
  | [], s => (none, s)
  | existingRec :: rest, s =>
    if existingRec.Host = name ∧ existingRec.Typ = typ ∧ existingRec.Data = data then
      let r := deleteDNSRecord Do domainID existingRec.ID s
      (some r.1, r.2)
    else deleteInner Do domainID name typ data rest s

/-- The outer loop of `DeleteRecords`, `deleted` being the slice built so far. -/
def deleteLoop {σ Record : Type} (Do : Request → σ → Outcome × σ)
    (RelativeName : String → String → String) (RRof : Record → RR) (zone : String)
    (domainID : Int) (existing : List dnsRecord) : List Record → List Record → Run σ →
    (List Record × Option Error) × Run σ
  | [], deleted, s => ((deleted, none), s)
  | record :: rest, deleted, s =>
    match deleteInner Do domainID (RelativeName (RRof record).Name zone) (RRof record).Typ
        (RRof record).Data existing s with
    | (some (some err), s1) => ((deleted, some err), s1)
    | (some none, s1) =>
      deleteLoop Do RelativeName RRof zone domainID existing rest (deleted ++ [record]) s1
    | (none, s1) => deleteLoop Do RelativeName RRof zone domainID existing rest deleted s1

/-- Go `Provider.DeleteRecords`. -/
def DeleteRecords {σ Record : Type} (Do : Request → σ → Outcome × σ)
    (RelativeName : String → String → String) (RRof : Record → RR) (zone : String)
    (records : List Record) (s : Run σ) : (List Record × Option Error) × Run σ :=
  match getDomainID Do zone s with
  | ((_, some err), s1) => (([], some err), s1)
  | ((domainID, none), s1) =>
    match getDNSRecords Do domainID s1 with
    | ((_, some err), s2) => (([], some err), s2)
    | ((existing, none), s2) =>
      deleteLoop Do RelativeName RRof zone domainID existing records [] s2

/-! ### Traces -/

/-- The success status of each endpoint. -/
def successStatus : Request → Int
  | Request.listDomains => StatusOK
  | Request.listRecords _ => StatusOK
  | Request.createRecord _ _ => StatusCreated
  | Request.deleteRecord _ _ => StatusNoContent

/-- `FailFastRun errOf reqs seg n err`: the log segment `seg` is what issuing the requests
`reqs` one after the other and stopping at the first failure leaves behind.  `errOf` reads
the error off an outcome, `n` counts the calls that succeeded, `err` is the error of the
failing call (`none` when all of `reqs` were issued and succeeded). -/
inductive FailFastRun (errOf : Outcome → Option Error) :
    List Request → List Exchange → Nat → Option Error → Prop where
  | done : FailFastRun errOf [] [] 0 none
  | fail (req : Request) (rest : List Request) (o : Outcome) (e : Error)
      (h : errOf o = some e) : FailFastRun errOf (req :: rest) [(req, o)] 0 (some e)
  | step (req : Request) (rest : List Request) (o : Outcome) (seg : List Exchange) (n : Nat)
      (err : Option Error) (h : errOf o = none) (hrest : FailFastRun errOf rest seg n err) :
      FailFastRun errOf (req :: rest) ((req, o) :: seg) (n + 1) err

/-- The create request `AppendRecords` issues for an input record. -/
def createRequest {Record : Type} (RelativeName : String → String → String)
    (RRof : Record → RR) (zone : String) (domainID : Int) (record : Record) : Request :=
  Request.createRecord domainID (toDNSRecord RelativeName zone (RRof record))

/-- The test of the inner loop of `SetRecords`: same host and type. -/
def sameNameType (RelativeName : String → String → String) (zone : String) (rr : RR)
    (existingRec : dnsRecord) : Bool :=
  decide (existingRec.Host = RelativeName rr.Name zone ∧ existingRec.Typ = rr.Typ)

/-- The test of the inner loop of `DeleteRecords`: same host, type and data. -/
def sameNameTypeData (RelativeName : String → String → String) (zone : String) (rr : RR)
    (existingRec : dnsRecord) : Bool :=
  decide (existingRec.Host = RelativeName rr.Name zone ∧ existingRec.Typ = rr.Typ ∧
    existingRec.Data = rr.Data)

/-- The existing records `SetRecords` deletes: for each input record in turn, every
existing record with its host and type, in fetched order. -/
def setTargetRecords {Record : Type} (RelativeName : String → String → String)
    (RRof : Record → RR) (zone : String) (existing : List dnsRecord)
    (records : List Record) : List dnsRecord :=
  records.flatMap (fun record => existing.filter (sameNameType RelativeName zone (RRof record)))

/-- The delete requests `SetRecords` is to issue: one per target record, by its id. -/
def setTargets {Record : Type} (RelativeName : String → String → String)
    (RRof : Record → RR) (zone : String) (domainID : Int) (existing : List dnsRecord)
    (records : List Record) : List Request :=
  (setTargetRecords RelativeName RRof zone existing records).map
    (fun e => Request.deleteRecord domainID e.ID)

/-- The existing record `DeleteRecords` selects for an input record: the first one, in
fetched order, equal to it in host, type and data. -/
def firstMatch {Record : Type} (RelativeName : String → String → String)
    (RRof : Record → RR) (zone : String) (existing : List dnsRecord) (record : Record) :
    Option dnsRecord :=
  existing.find? (sameNameTypeData RelativeName zone (RRof record))

/-- The input records for which `DeleteRecords` finds an existing record, in input order. -/
def matched {Record : Type} (RelativeName : String → String → String)
    (RRof : Record → RR) (zone : String) (existing : List dnsRecord)
    (records : List Record) : List Record :=
  records.filter (fun record => (firstMatch RelativeName RRof zone existing record).isSome)

/-- The existing records `DeleteRecords` deletes: the first match of each input record
that has one, in input order. -/
def deleteTargetRecords {Record : Type} (RelativeName : String → String → String)
    (RRof : Record → RR) (zone : String) (existing : List dnsRecord)
    (records : List Record) : List dnsRecord :=
  records.filterMap (firstMatch RelativeName RRof zone existing)

/-- The delete requests `DeleteRecords` is to issue: one per target record, by its id. -/
def deleteTargets {Record : Type} (RelativeName : String → String → String)
    (RRof : Record → RR) (zone : String) (domainID : Int) (existing : List dnsRecord)
    (records : List Record) : List Request :=
  (deleteTargetRecords RelativeName RRof zone existing records).map
    (fun e => Request.deleteRecord domainID e.ID)

/-- An exchange is reported by an operation's error `err` when, if it is a response whose
status is not the success status of its endpoint, `err` is an error whose message contains
the `Status` of that response. -/
def Reported (x : Exchange) (err : Option Error) : Prop :=
  ∀ r : Response, x.2 = Outcome.resp r → r.StatusCode ≠ successStatus x.1 →
    ∃ e pre post, err = some e ∧ e = pre ++ r.Status ++ post

/-- Between the states `s` and `t` of a run, every exchange added to the log is reported by
`err`: no response with a status other than the success status of its endpoint went by
without `err` being an error that carries its `Status`. -/
def ReportsAll {σ : Type} (s t : Run σ) (err : Option Error) : Prop :=
  ∃ seg : List Exchange, t.log = s.log ++ seg ∧ ∀ x ∈ seg, Reported x err

/-! ### Concrete worlds, used to run the operations on explicit inputs -/

/-- A world that answers the successive calls with a fixed script of outcomes, whatever
the request; once the script is exhausted every call is a transport error. -/
def scriptedDo : Request → List Outcome → Outcome × List Outcome
  | _, [] => (Outcome.err "connection refused", [])
  | _, o :: rest => (o, rest)

/-- A response with the given status line and nothing to decode. -/
def plainResponse (code : Int) (status : String) : Response :=
  { StatusCode := code, Status := status, Body := "",
    domains := Decoded.fail "EOF", records := Decoded.fail "EOF" }

/-- A `200 OK` response whose body decodes to the given domain list. -/
def domainsResponse (ds : List domain) : Response :=
  { StatusCode := 200, Status := "200 OK", Body := "",
    domains := Decoded.ok ds, records := Decoded.fail "cannot unmarshal" }

/-- A `200 OK` response whose body decodes to the given record list. -/
def recordsResponse (rs : List dnsRecord) : Response :=
  { StatusCode := 200, Status := "200 OK", Body := "",
    domains := Decoded.fail "cannot unmarshal", records := Decoded.ok rs }

/-- The start of a run: nothing logged yet. -/
def start {σ : Type} (w : σ) : Run σ := { world := w, log := [] }

/-- A rendering of `libdns.RelativeName` (libdns is a dependency, not part of this
repository): trailing dots are ignored, the zone is cut off the end of the name, and the
zone apex is written `@`.  The operations take the function as a parameter; this one
instantiates the parameter on explicit inputs. -/
def RelativeNameV1 (fqdn zone : String) : String :=
  let rel := TrimSuffix (TrimSuffix (TrimSuffix fqdn ".") (TrimSuffix zone ".")) "."
  if rel = "" ∧ fqdn ≠ "" ∧ zone ≠ "" then "@" else rel

/-- A registrar serving one zone: its records carry distinct ids, every id below `nextID`. -/
structure Registrar where
  domainID : Int
  name : String
  records : List dnsRecord
  nextID : Int
deriving DecidableEq, Repr

/-- The registrar answers a call: listings return the current state; a create adds the
record under a fresh id; a delete removes the record with that id and is a `404` when there
is none; anything about another domain is a `404`. -/
def registrarDo : Request → Registrar → Outcome × Registrar
  | Request.listDomains, w =>
    (Outcome.resp (domainsResponse [{ ID := w.domainID, Domain := w.name }]), w)
  | Request.listRecords domainID, w =>
    if domainID = w.domainID then (Outcome.resp (recordsResponse w.records), w)
    else (Outcome.resp (plainResponse 404 "404 Not Found"), w)
  | Request.createRecord domainID record, w =>
    if domainID = w.domainID then
      (Outcome.resp (plainResponse 201 "201 Created"),
        { w with records := w.records ++ [{ record with ID := w.nextID }],
                 nextID := w.nextID + 1 })
    else (Outcome.resp (plainResponse 404 "404 Not Found"), w)
  | Request.deleteRecord domainID recordID, w =>
    if domainID = w.domainID ∧ (w.records.any (fun r => decide (r.ID = recordID))) = true then
      (Outcome.resp (plainResponse 204 "204 No Content"),
        { w with records := w.records.filter (fun r => decide (r.ID ≠ recordID)) })
    else (Outcome.resp (plainResponse 404 "404 Not Found"), w)

/-- The zone `example.com` with id 7 holding the two address records of the examples. -/
def exampleRegistrar : Registrar :=
  { domainID := 7, name := "example.com",
    records := [{ ID := 1, Host := "a", Typ := "A", Data := "1.1.1.1", TTL := 3600 },
                { ID := 2, Host := "a", Typ := "A", Data := "2.2.2.2", TTL := 3600 }],
    nextID := 3 }

/-- The example zone with a `TXT` record added under the same name as the address records. -/
def exampleRegistrarTXT : Registrar :=
  { domainID := 7, name := "example.com",
    records := [{ ID := 1, Host := "a", Typ := "A", Data := "1.1.1.1", TTL := 3600 },
                { ID := 2, Host := "a", Typ := "A", Data := "2.2.2.2", TTL := 3600 },
                { ID := 3, Host := "a", Typ := "TXT", Data := "hello", TTL := 3600 }],
    nextID := 4 }

/-! ## Zone resolution -/

theorem TrimSuffix_append_dot (Z : String) : TrimSuffix (Z ++ ".") "." = Z := by
  simp [TrimSuffix]

theorem TrimSuffix_of_no_dot (Z : String) (h : Z.data.getLast? ≠ some '.') :
    TrimSuffix Z "." = Z := by
  simp only [TrimSuffix]
  split
  · rename_i h1
    exfalso
    apply h
    have h2 : ['.'] <:+ Z.data := by simpa using h1
    obtain ⟨t, ht⟩ := h2
    rw [← ht]
    simp
  · rfl

theorem scanDomains_eq_find (zone : String) (ds : List domain) :
    scanDomains zone ds =
      match ds.find? (fun d => decide (d.Domain = zone)) with
      | some d => (d.ID, none)
      | none => (0, some ("domain " ++ zone ++ " not found")) := by
  induction ds with
  | nil => rfl
  | cons d ds ih =>
    by_cases h : d.Domain = zone
    · simp [scanDomains, List.find?, h]
    · simp [scanDomains, List.find?, h, ih]

theorem scanDomains_not_found_iff (zone : String) (ds : List domain) :
    (scanDomains zone ds).2 = some ("domain " ++ zone ++ " not found") ↔
      ∀ d ∈ ds, d.Domain ≠ zone := by
  induction ds with
  | nil => simp [scanDomains]
  | cons d ds ih =>
    by_cases h : d.Domain = zone
    · simp [scanDomains, h]
    · simp [scanDomains, h, ih]

/-- C8: for a zone name `Z` that does not end in a dot, `getDomainID` gives the same result
(and makes the same call) for `Z` and for `Z` followed by a dot; when the listing succeeds
with domain list `ds`, the result is the id of the first domain of `ds` whose name equals
`Z`, and it is the "not found" error exactly when no domain of `ds` is named `Z`. -/
theorem getDomainID_zone_resolution {σ : Type} (Do : Request → σ → Outcome × σ)
    (Z : String) (s : Run σ) (hZ : Z.data.getLast? ≠ some '.') :
    getDomainID Do (Z ++ ".") s = getDomainID Do Z s ∧
    ∀ (resp : Response) (w : σ) (ds : List domain),
      Do Request.listDomains s.world = (Outcome.resp resp, w) →
      resp.StatusCode = 200 → resp.domains = Decoded.ok ds →
      ((getDomainID Do Z s).1 =
        match ds.find? (fun d => decide (d.Domain = Z)) with
        | some d => (d.ID, none)
        | none => (0, some ("domain " ++ Z ++ " not found"))) ∧
      ((getDomainID Do Z s).1.2 = some ("domain " ++ Z ++ " not found") ↔
        ∀ d ∈ ds, d.Domain ≠ Z) := by
  refine ⟨?_, ?_⟩
  · simp only [getDomainID, TrimSuffix_append_dot, TrimSuffix_of_no_dot Z hZ]
  · intro resp w ds hDo hCode hDec
    have hget : (getDomainID Do Z s).1 = scanDomains Z ds := by
      simp [getDomainID, send, hDo, hCode, hDec, StatusOK, TrimSuffix_of_no_dot Z hZ]
    rw [hget]
    exact ⟨scanDomains_eq_find Z ds, scanDomains_not_found_iff Z ds⟩

/-- Witness for C8: the zone `example.com`, listed second and third, resolves to the id of
its first entry, with and without the trailing dot. -/
theorem getDomainID_zone_resolution_witness :
    ("example.com" : String).data.getLast? ≠ some '.' ∧
    getDomainID scriptedDo ("example.com" ++ ".")
        (start [Outcome.resp (domainsResponse [⟨1, "example.org"⟩, ⟨7, "example.com"⟩,
          ⟨9, "example.com"⟩])]) =
      getDomainID scriptedDo "example.com"
        (start [Outcome.resp (domainsResponse [⟨1, "example.org"⟩, ⟨7, "example.com"⟩,
          ⟨9, "example.com"⟩])]) ∧
    (getDomainID scriptedDo "example.com"
        (start [Outcome.resp (domainsResponse [⟨1, "example.org"⟩, ⟨7, "example.com"⟩,
          ⟨9, "example.com"⟩])])).1 = (7, none) ∧
    ((getDomainID scriptedDo "example.com"
        (start [Outcome.resp (domainsResponse [⟨1, "example.org"⟩, ⟨7, "example.com"⟩,
          ⟨9, "example.com"⟩])])).1.2 = some ("domain " ++ "example.com" ++ " not found") ↔
      ∀ d ∈ [(⟨1, "example.org"⟩ : domain), ⟨7, "example.com"⟩, ⟨9, "example.com"⟩],
        d.Domain ≠ "example.com") :=
  ⟨by decide,
   (getDomainID_zone_resolution scriptedDo "example.com"
      (start [Outcome.resp (domainsResponse [⟨1, "example.org"⟩, ⟨7, "example.com"⟩,
          ⟨9, "example.com"⟩])]) (by decide)).1,
   by decide,
   ((getDomainID_zone_resolution scriptedDo "example.com"
      (start [Outcome.resp (domainsResponse [⟨1, "example.org"⟩, ⟨7, "example.com"⟩,
          ⟨9, "example.com"⟩])]) (by decide)).2
      (domainsResponse [⟨1, "example.org"⟩, ⟨7, "example.com"⟩, ⟨9, "example.com"⟩]) []
      [⟨1, "example.org"⟩, ⟨7, "example.com"⟩, ⟨9, "example.com"⟩] rfl rfl rfl).2⟩

/-! ## Fail-fast runs -/

theorem FailFastRun.append_ok {errOf : Outcome → Option Error} {reqs1 reqs2 : List Request}
    {seg1 seg2 : List Exchange} {n1 n2 : Nat} {err : Option Error}
    (h1 : FailFastRun errOf reqs1 seg1 n1 none) (h2 : FailFastRun errOf reqs2 seg2 n2 err) :
    FailFastRun errOf (reqs1 ++ reqs2) (seg1 ++ seg2) (n1 + n2) err := by
  generalize hnone : (none : Option Error) = e1 at h1
  induction h1 with
  | done => simpa using h2
  | fail req rest o e h => cases hnone
  | step req rest o seg n err1 h hrest ih =>
    have := FailFastRun.step req _ o _ _ err h (ih hnone)
    simpa [Nat.add_right_comm] using this

theorem FailFastRun.append_fail {errOf : Outcome → Option Error} {reqs1 : List Request}
    (reqs2 : List Request) {seg1 : List Exchange} {n1 : Nat} {e : Error}
    (h1 : FailFastRun errOf reqs1 seg1 n1 (some e)) :
    FailFastRun errOf (reqs1 ++ reqs2) seg1 n1 (some e) := by
  generalize hsome : some e = e1 at h1
  induction h1 with
  | done => cases hsome
  | fail req rest o e0 h =>
    cases hsome
    exact FailFastRun.fail req _ o e h
  | step req rest o seg n err1 h hrest ih =>
    exact FailFastRun.step req _ o _ _ _ h (ih hsome)

/-- The explicit reading of a fail-fast run: `outs` are the outcomes of the calls issued;
the calls are the first `outs.length` requests, in order; either all requests were issued
and succeeded, or the first `n` succeeded and call `n + 1` failed with the reported error. -/
theorem FailFastRun.explicit {errOf : Outcome → Option Error} {reqs : List Request}
    {seg : List Exchange} {n : Nat} {err : Option Error}
    (h : FailFastRun errOf reqs seg n err) :
    ∃ outs : List Outcome,
      seg = (reqs.take outs.length).zip outs ∧ outs.length ≤ reqs.length ∧
      (((∀ o ∈ outs, errOf o = none) ∧ outs.length = reqs.length ∧ n = reqs.length ∧
          err = none) ∨
        (∃ e, outs.length = n + 1 ∧ (∀ o ∈ outs.take n, errOf o = none) ∧
          (outs.get? n).bind errOf = some e ∧ err = some e)) := by
  induction h with
  | done => exact ⟨[], by simp⟩
  | fail req rest o e h => exact ⟨[o], by simp [h]⟩
  | step req rest o seg n err h hrest ih =>
    obtain ⟨outs, hseg, hlen, hcase⟩ := ih
    refine ⟨o :: outs, by simp [hseg], by simpa using hlen, ?_⟩
    rcases hcase with ⟨hall, hl, hn, he⟩ | ⟨e, hl, hall, hbad, he⟩
    · left
      exact ⟨by simpa [h] using hall, by simp [hl], by simp [hn], he⟩
    · right
      exact ⟨e, by simp [hl], by simpa [h] using hall, by simpa using hbad, he⟩

/-- The requests of a fail-fast run are an initial part of the requests to issue. -/
theorem FailFastRun.requests {errOf : Outcome → Option Error} {reqs : List Request}
    {seg : List Exchange} {n : Nat} {err : Option Error}
    (h : FailFastRun errOf reqs seg n err) :
    ∃ m, seg.map Prod.fst = reqs.take m := by
  induction h with
  | done => exact ⟨0, rfl⟩
  | fail req rest o e h => exact ⟨1, by simp⟩
  | step req rest o seg n err h hrest ih =>
    obtain ⟨m, hm⟩ := ih
    exact ⟨m + 1, by simp [hm]⟩

/-! ## The loops as fail-fast runs -/

theorem createDNSRecord_eq {σ : Type} (Do : Request → σ → Outcome × σ) (domainID : Int)
    (record : dnsRecord) (s : Run σ) :
    createDNSRecord Do domainID record s =
      (createError (Do (Request.createRecord domainID record) s.world).1,
        { world := (Do (Request.createRecord domainID record) s.world).2,
          log := s.log ++ [(Request.createRecord domainID record,
            (Do (Request.createRecord domainID record) s.world).1)] }) := rfl

theorem deleteDNSRecord_eq {σ : Type} (Do : Request → σ → Outcome × σ)
    (domainID recordID : Int) (s : Run σ) :
    deleteDNSRecord Do domainID recordID s =
      (deleteError (Do (Request.deleteRecord domainID recordID) s.world).1,
        { world := (Do (Request.deleteRecord domainID recordID) s.world).2,
          log := s.log ++ [(Request.deleteRecord domainID recordID,
            (Do (Request.deleteRecord domainID recordID) s.world).1)] }) := rfl

theorem appendLoop_run {σ Record : Type} (Do : Request → σ → Outcome × σ)
    (RelativeName : String → String → String) (RRof : Record → RR) (zone : String)
    (domainID : Int) (records created : List Record) (s : Run σ) :
    ∃ seg n,
      (appendLoop Do RelativeName RRof zone domainID records created s).2.log = s.log ++ seg ∧
      FailFastRun createError (records.map (createRequest RelativeName RRof zone domainID))
        seg n (appendLoop Do RelativeName RRof zone domainID records created s).1.2 ∧
      (appendLoop Do RelativeName RRof zone domainID records created s).1.1 =
        created ++ records.take n := by
  induction records generalizing created s with
  | nil => exact ⟨[], 0, by simp [appendLoop], by simpa [appendLoop] using FailFastRun.done,
      by simp [appendLoop]⟩
  | cons record rest ih =>
    rw [appendLoop, createDNSRecord_eq]
    generalize hd : Do (Request.createRecord domainID
      (toDNSRecord RelativeName zone (RRof record))) s.world = d
    cases h : createError d.1 with
    | some err =>
      refine ⟨[(createRequest RelativeName RRof zone domainID record, d.1)], 0, rfl, ?_,
        by simp⟩
      exact FailFastRun.fail _ _ _ _ h
    | none =>
      obtain ⟨seg, n, hlog, hrun, hres⟩ := ih (created ++ [record])
        { world := d.2,
          log := s.log ++ [(Request.createRecord domainID
            (toDNSRecord RelativeName zone (RRof record)), d.1)] }
      refine ⟨(createRequest RelativeName RRof zone domainID record, d.1) :: seg, n + 1,
        ?_, ?_, ?_⟩
      · simpa [createRequest] using hlog
      · exact FailFastRun.step _ _ _ _ _ _ h hrun
      · simpa using hres

theorem setInner_run {σ : Type} (Do : Request → σ → Outcome × σ) (domainID : Int)
    (name typ : String) (existing : List dnsRecord) (s : Run σ) :
    ∃ seg n,
      (setInner Do domainID name typ existing s).2.log = s.log ++ seg ∧
      FailFastRun deleteError
        ((existing.filter (fun e => decide (e.Host = name ∧ e.Typ = typ))).map
          (fun e => Request.deleteRecord domainID e.ID))
        seg n (setInner Do domainID name typ existing s).1 := by
  induction existing generalizing s with
  | nil => exact ⟨[], 0, by simp [setInner], by simpa [setInner] using FailFastRun.done⟩
  | cons e rest ih =>
    rw [setInner]
    by_cases hm : e.Host = name ∧ e.Typ = typ
    · rw [if_pos hm, deleteDNSRecord_eq]
      have hf : (List.filter (fun e => decide (e.Host = name ∧ e.Typ = typ)) (e :: rest)) =
          e :: List.filter (fun e => decide (e.Host = name ∧ e.Typ = typ)) rest := by
        simp [List.filter, hm]
      rw [hf]
      cases h : deleteError (Do (Request.deleteRecord domainID e.ID) s.world).1 with
      | some err =>
        exact ⟨[(Request.deleteRecord domainID e.ID, _)], 0, rfl, FailFastRun.fail _ _ _ _ h⟩
      | none =>
        obtain ⟨seg, n, hlog, hrun⟩ := ih
          { world := (Do (Request.deleteRecord domainID e.ID) s.world).2,
            log := s.log ++ [(Request.deleteRecord domainID e.ID,
              (Do (Request.deleteRecord domainID e.ID) s.world).1)] }
        exact ⟨(Request.deleteRecord domainID e.ID, _) :: seg, n + 1, by simpa using hlog,
          FailFastRun.step _ _ _ _ _ _ h hrun⟩
    · rw [if_neg hm]
      have hf : (List.filter (fun e => decide (e.Host = name ∧ e.Typ = typ)) (e :: rest)) =
          List.filter (fun e => decide (e.Host = name ∧ e.Typ = typ)) rest := by
        simp [List.filter, hm]
      rw [hf]
      exact ih s

theorem setLoop_run {σ Record : Type} (Do : Request → σ → Outcome × σ)
    (RelativeName : String → String → String) (RRof : Record → RR) (zone : String)
    (domainID : Int) (existing : List dnsRecord) (records : List Record) (s : Run σ) :
    ∃ seg n,
      (setLoop Do RelativeName RRof zone domainID existing records s).2.log = s.log ++ seg ∧
      FailFastRun deleteError (setTargets RelativeName RRof zone domainID existing records)
        seg n (setLoop Do RelativeName RRof zone domainID existing records s).1 := by
  induction records generalizing s with
  | nil => exact ⟨[], 0, by simp [setLoop], by simpa [setLoop, setTargets, setTargetRecords] using FailFastRun.done⟩
  | cons record rest ih =>
    obtain ⟨seg1, n1, hlog1, hrun1⟩ := setInner_run Do domainID
      (RelativeName (RRof record).Name zone) (RRof record).Typ existing s
    have htargets : setTargets RelativeName RRof zone domainID existing (record :: rest) =
        (existing.filter (fun e => decide (e.Host = RelativeName (RRof record).Name zone ∧
            e.Typ = (RRof record).Typ))).map (fun e => Request.deleteRecord domainID e.ID) ++
          setTargets RelativeName RRof zone domainID existing rest := by
      simp only [setTargets, setTargetRecords, List.flatMap_cons, List.map_append]
      rfl
    rw [setLoop, htargets]
    cases h : setInner Do domainID (RelativeName (RRof record).Name zone) (RRof record).Typ
        existing s with
    | mk r s1 =>
      rw [h] at hlog1 hrun1
      cases r with
      | some err =>
        exact ⟨seg1, n1, hlog1, FailFastRun.append_fail _ hrun1⟩
      | none =>
        obtain ⟨seg2, n2, hlog2, hrun2⟩ := ih s1
        refine ⟨seg1 ++ seg2, n1 + n2, ?_, FailFastRun.append_ok hrun1 hrun2⟩
        simp only at hlog1 ⊢
        rw [hlog2, hlog1, List.append_assoc]

theorem deleteInner_eq {σ : Type} (Do : Request → σ → Outcome × σ) (domainID : Int)
    (name typ data : String) (existing : List dnsRecord) (s : Run σ) :
    deleteInner Do domainID name typ data existing s =
      match existing.find? (fun e => decide (e.Host = name ∧ e.Typ = typ ∧ e.Data = data)) with
      | none => (none, s)
      | some e => (some (deleteDNSRecord Do domainID e.ID s).1,
          (deleteDNSRecord Do domainID e.ID s).2) := by
  induction existing with
  | nil => rfl
  | cons e rest ih =>
    by_cases hm : e.Host = name ∧ e.Typ = typ ∧ e.Data = data
    · simp [deleteInner, List.find?, hm]
    · rw [deleteInner, if_neg hm, ih]
      simp [List.find?, hm]

theorem deleteLoop_run {σ Record : Type} (Do : Request → σ → Outcome × σ)
    (RelativeName : String → String → String) (RRof : Record → RR) (zone : String)
    (domainID : Int) (existing : List dnsRecord) (records deleted : List Record)
    (s : Run σ) :
    ∃ seg n,
      (deleteLoop Do RelativeName RRof zone domainID existing records deleted s).2.log =
        s.log ++ seg ∧
      FailFastRun deleteError (deleteTargets RelativeName RRof zone domainID existing records)
        seg n (deleteLoop Do RelativeName RRof zone domainID existing records deleted s).1.2 ∧
      (deleteLoop Do RelativeName RRof zone domainID existing records deleted s).1.1 =
        deleted ++ (matched RelativeName RRof zone existing records).take n := by
  induction records generalizing deleted s with
  | nil =>
    exact ⟨[], 0, by simp [deleteLoop],
      by simpa [deleteLoop, deleteTargets, deleteTargetRecords] using FailFastRun.done,
      by simp [deleteLoop]⟩
  | cons record rest ih =>
    rw [deleteLoop, deleteInner_eq]
    have hfm : firstMatch RelativeName RRof zone existing record =
        existing.find? (fun e => decide (e.Host = RelativeName (RRof record).Name zone ∧
          e.Typ = (RRof record).Typ ∧ e.Data = (RRof record).Data)) := rfl
    cases hfind : existing.find? (fun e => decide (e.Host = RelativeName (RRof record).Name zone ∧
          e.Typ = (RRof record).Typ ∧ e.Data = (RRof record).Data)) with
    | none =>
      rw [hfind] at hfm
      obtain ⟨seg, n, hlog, hrun, hres⟩ := ih deleted s
      refine ⟨seg, n, hlog, ?_, ?_⟩
      · simpa [deleteTargets, deleteTargetRecords, List.filterMap_cons, hfm] using hrun
      · simpa [matched, List.filter_cons, hfm] using hres
    | some e =>
      rw [hfind] at hfm
      have htargets : deleteTargets RelativeName RRof zone domainID existing (record :: rest) =
          Request.deleteRecord domainID e.ID ::
            deleteTargets RelativeName RRof zone domainID existing rest := by
        simp [deleteTargets, deleteTargetRecords, List.filterMap_cons, hfm]
      have hmatched : matched RelativeName RRof zone existing (record :: rest) =
          record :: matched RelativeName RRof zone existing rest := by
        simp [matched, List.filter_cons, hfm]
      rw [htargets, hmatched]
      dsimp only
      rw [deleteDNSRecord_eq]
      generalize Do (Request.deleteRecord domainID e.ID) s.world = d
      cases h : deleteError d.1 with
      | some err =>
        exact ⟨[(Request.deleteRecord domainID e.ID, d.1)], 0, rfl,
          FailFastRun.fail _ _ _ _ h, by simp⟩
      | none =>
        obtain ⟨seg, n, hlog, hrun, hres⟩ := ih (deleted ++ [record])
          { world := d.2, log := s.log ++ [(Request.deleteRecord domainID e.ID, d.1)] }
        exact ⟨(Request.deleteRecord domainID e.ID, d.1) :: seg, n + 1, by simpa using hlog,
          FailFastRun.step _ _ _ _ _ _ h hrun, by simpa using hres⟩

theorem getDomainID_log {σ : Type} (Do : Request → σ → Outcome × σ) (zone : String)
    (s : Run σ) :
    (getDomainID Do zone s).2 =
      { world := (Do Request.listDomains s.world).2,
        log := s.log ++ [(Request.listDomains, (Do Request.listDomains s.world).1)] } := by
  simp only [getDomainID, send]
  split
  · rename_i h; simp only [Prod.mk.injEq] at h; rw [← h.2]
  · rename_i h; simp only [Prod.mk.injEq] at h
    split
    · rw [← h.2]
    · split <;> rw [← h.2]

theorem getDNSRecords_log {σ : Type} (Do : Request → σ → Outcome × σ) (domainID : Int)
    (s : Run σ) :
    (getDNSRecords Do domainID s).2 =
      { world := (Do (Request.listRecords domainID) s.world).2,
        log := s.log ++ [(Request.listRecords domainID,
          (Do (Request.listRecords domainID) s.world).1)] } := by
  simp only [getDNSRecords, send]
  split
  · rename_i h; simp only [Prod.mk.injEq] at h; rw [← h.2]
  · rename_i h; simp only [Prod.mk.injEq] at h
    split
    · rw [← h.2]
    · split <;> rw [← h.2]

/-! ## AppendRecords -/

/-- C2: once the zone has resolved to `domainID`, `AppendRecords` issues its create calls
fail-fast.  With `outs` the outcomes of the create calls issued: the calls are those for the
first `outs.length` input records, in input order; either every one of the `N` calls
succeeded and the result is the input list without error, or the first `k` succeeded, call
`k + 1` failed with error `e` and was the last, and the result is the first `k` original
input records together with `e`. -/
theorem AppendRecords_fail_fast {σ Record : Type} (Do : Request → σ → Outcome × σ)
    (RelativeName : String → String → String) (RRof : Record → RR) (zone : String)
    (records : List Record) (s s1 : Run σ) (domainID : Int)
    (hid : getDomainID Do zone s = ((domainID, none), s1)) :
    ∃ outs : List Outcome,
      (AppendRecords Do RelativeName RRof zone records s).2.log =
        s1.log ++ ((records.take outs.length).map
          (createRequest RelativeName RRof zone domainID)).zip outs ∧
      outs.length ≤ records.length ∧
      (((∀ o ∈ outs, createError o = none) ∧ outs.length = records.length ∧
          (AppendRecords Do RelativeName RRof zone records s).1 = (records, none)) ∨
        (∃ k e, outs.length = k + 1 ∧ (∀ o ∈ outs.take k, createError o = none) ∧
          (outs.get? k).bind createError = some e ∧
          (AppendRecords Do RelativeName RRof zone records s).1 =
            (records.take k, some e))) := by
  obtain ⟨seg, n, hlog, hrun, hres⟩ :=
    appendLoop_run Do RelativeName RRof zone domainID records [] s1
  have happ : AppendRecords Do RelativeName RRof zone records s =
      appendLoop Do RelativeName RRof zone domainID records [] s1 := by
    simp [AppendRecords, hid]
  obtain ⟨outs, hseg, hlen, hcase⟩ := hrun.explicit
  rw [List.length_map] at hlen
  refine ⟨outs, ?_, hlen, ?_⟩
  · rw [happ, hlog, hseg, List.map_take]
  · rw [happ]
    rcases hcase with ⟨hall, hl, hn, he⟩ | ⟨e, hl, hall, hbad, he⟩
    · left
      rw [List.length_map] at hl hn
      refine ⟨hall, hl, ?_⟩
      apply Prod.ext
      · simpa [hn] using hres
      · exact he
    · right
      refine ⟨n, e, hl, hall, hbad, ?_⟩
      apply Prod.ext
      · simpa using hres
      · exact he

/-- Witness for C2: three records against a registrar that accepts the first create and
answers the second with a `500`; two creates are issued and the first record is returned
with the error of the second call. -/
theorem AppendRecords_fail_fast_witness :
    (AppendRecords scriptedDo RelativeNameV1 id "example.com."
        [(⟨"A", "a", "1.1.1.1", 0⟩ : RR), ⟨"A", "b", "2.2.2.2", 0⟩, ⟨"A", "c", "3.3.3.3", 0⟩]
        (start [Outcome.resp (domainsResponse [⟨7, "example.com"⟩]),
          Outcome.resp (plainResponse 201 "201 Created"),
          Outcome.resp (plainResponse 500 "500 Internal Server Error")])).1 =
      ([⟨"A", "a", "1.1.1.1", 0⟩],
        some "failed to create DNS record: 500 Internal Server Error - ") ∧
    ∃ outs : List Outcome,
      (AppendRecords scriptedDo RelativeNameV1 id "example.com."
        [(⟨"A", "a", "1.1.1.1", 0⟩ : RR), ⟨"A", "b", "2.2.2.2", 0⟩, ⟨"A", "c", "3.3.3.3", 0⟩]
        (start [Outcome.resp (domainsResponse [⟨7, "example.com"⟩]),
          Outcome.resp (plainResponse 201 "201 Created"),
          Outcome.resp (plainResponse 500 "500 Internal Server Error")])).2.log =
        [(Request.listDomains, Outcome.resp (domainsResponse [⟨7, "example.com"⟩]))] ++
          (([(⟨"A", "a", "1.1.1.1", 0⟩ : RR), ⟨"A", "b", "2.2.2.2", 0⟩,
              ⟨"A", "c", "3.3.3.3", 0⟩].take outs.length).map
            (createRequest RelativeNameV1 id "example.com." 7)).zip outs :=
  ⟨by decide,
   (AppendRecords_fail_fast scriptedDo RelativeNameV1 id "example.com."
      [(⟨"A", "a", "1.1.1.1", 0⟩ : RR), ⟨"A", "b", "2.2.2.2", 0⟩, ⟨"A", "c", "3.3.3.3", 0⟩]
      (start [Outcome.resp (domainsResponse [⟨7, "example.com"⟩]),
          Outcome.resp (plainResponse 201 "201 Created"),
          Outcome.resp (plainResponse 500 "500 Internal Server Error")])
      { world := [Outcome.resp (plainResponse 201 "201 Created"),
          Outcome.resp (plainResponse 500 "500 Internal Server Error")],
        log := [(Request.listDomains, Outcome.resp (domainsResponse [⟨7, "example.com"⟩]))] }
      7 (by rfl)).imp (fun _ h => h.1)⟩

/-! ## DeleteRecords -/

theorem filterMap_take_of_isSome {α β : Type} (g : α → Option β) (l : List α)
    (h : ∀ a ∈ l, (g a).isSome = true) (m : Nat) :
    (l.filterMap g).take m = (l.take m).filterMap g := by
  induction l generalizing m with
  | nil => simp
  | cons a l ih =>
    cases m with
    | zero => simp
    | succ m =>
      have ha : (g a).isSome = true := h a (List.mem_cons_self a l)
      obtain ⟨b, hb⟩ := Option.isSome_iff_exists.mp ha
      simp [List.filterMap_cons, hb, ih (fun x hx => h x (List.mem_cons_of_mem a hx)) m]

theorem deleteTargets_eq_matched {Record : Type} (RelativeName : String → String → String)
    (RRof : Record → RR) (zone : String) (domainID : Int) (existing : List dnsRecord)
    (records : List Record) :
    deleteTargets RelativeName RRof zone domainID existing records =
      (matched RelativeName RRof zone existing records).filterMap
        (fun record => (firstMatch RelativeName RRof zone existing record).map
          (fun e => Request.deleteRecord domainID e.ID)) := by
  induction records with
  | nil => rfl
  | cons record rest ih =>
    simp only [deleteTargets, deleteTargetRecords, matched] at ih ⊢
    cases h : firstMatch RelativeName RRof zone existing record with
    | none => simpa [List.filterMap_cons, List.filter_cons, h] using ih
    | some e => simpa [List.filterMap_cons, List.filter_cons, h] using ih

theorem deleteTargets_length {Record : Type} (RelativeName : String → String → String)
    (RRof : Record → RR) (zone : String) (domainID : Int) (existing : List dnsRecord)
    (records : List Record) :
    (deleteTargets RelativeName RRof zone domainID existing records).length =
      (matched RelativeName RRof zone existing records).length := by
  induction records with
  | nil => rfl
  | cons record rest ih =>
    simp only [deleteTargets, deleteTargetRecords, matched, List.length_map] at ih ⊢
    cases h : firstMatch RelativeName RRof zone existing record with
    | none => simpa [List.filterMap_cons, List.filter_cons, h] using ih
    | some e => simpa [List.filterMap_cons, List.filter_cons, h] using ih

theorem deleteTargets_take {Record : Type} (RelativeName : String → String → String)
    (RRof : Record → RR) (zone : String) (domainID : Int) (existing : List dnsRecord)
    (records : List Record) (m : Nat) :
    (deleteTargets RelativeName RRof zone domainID existing records).take m =
      ((matched RelativeName RRof zone existing records).take m).filterMap
        (fun record => (firstMatch RelativeName RRof zone existing record).map
          (fun e => Request.deleteRecord domainID e.ID)) := by
  rw [deleteTargets_eq_matched, filterMap_take_of_isSome]
  intro a ha
  have := (List.mem_filter.mp ha).2
  simpa using this

theorem DeleteRecords_eq_loop {σ Record : Type} (Do : Request → σ → Outcome × σ)
    (RelativeName : String → String → String) (RRof : Record → RR) (zone : String)
    (records : List Record) (s s1 s2 : Run σ) (domainID : Int) (existing : List dnsRecord)
    (hid : getDomainID Do zone s = ((domainID, none), s1))
    (hrec : getDNSRecords Do domainID s1 = ((existing, none), s2)) :
    DeleteRecords Do RelativeName RRof zone records s =
      deleteLoop Do RelativeName RRof zone domainID existing records [] s2 := by
  simp [DeleteRecords, hid, hrec]

/-- C4: once the zone has resolved and the listing returned `existing`, `DeleteRecords`
issues one delete per input record that has a match, in input order, for the id of its first
match, and none for the others.  With `outs` the outcomes of the delete calls issued: either
all of them succeeded and the result is the list of matched input records without error, or
the first `k` succeeded, call `k + 1` failed with `e` and was the last, and the result is the
first `k` matched input records with `e`.  When no input record has a match the result is
the empty list, no error, and no call is issued. -/
theorem DeleteRecords_result {σ Record : Type} (Do : Request → σ → Outcome × σ)
    (RelativeName : String → String → String) (RRof : Record → RR) (zone : String)
    (records : List Record) (s s1 s2 : Run σ) (domainID : Int) (existing : List dnsRecord)
    (hid : getDomainID Do zone s = ((domainID, none), s1))
    (hrec : getDNSRecords Do domainID s1 = ((existing, none), s2)) :
    (∃ outs : List Outcome,
      (DeleteRecords Do RelativeName RRof zone records s).2.log =
        s2.log ++ (((matched RelativeName RRof zone existing records).take outs.length).filterMap
          (fun record => (firstMatch RelativeName RRof zone existing record).map
            (fun e => Request.deleteRecord domainID e.ID))).zip outs ∧
      outs.length ≤ (matched RelativeName RRof zone existing records).length ∧
      (((∀ o ∈ outs, deleteError o = none) ∧
          outs.length = (matched RelativeName RRof zone existing records).length ∧
          (DeleteRecords Do RelativeName RRof zone records s).1 =
            (matched RelativeName RRof zone existing records, none)) ∨
        (∃ k e, outs.length = k + 1 ∧ (∀ o ∈ outs.take k, deleteError o = none) ∧
          (outs.get? k).bind deleteError = some e ∧
          (DeleteRecords Do RelativeName RRof zone records s).1 =
            ((matched RelativeName RRof zone existing records).take k, some e)))) ∧
    ((∀ record ∈ records, firstMatch RelativeName RRof zone existing record = none) →
      (DeleteRecords Do RelativeName RRof zone records s).1 = ([], none) ∧
      (DeleteRecords Do RelativeName RRof zone records s).2.log = s2.log) := by
  obtain ⟨seg, n, hlog, hrun, hres⟩ :=
    deleteLoop_run Do RelativeName RRof zone domainID existing records [] s2
  have hdel := DeleteRecords_eq_loop Do RelativeName RRof zone records s s1 s2 domainID
    existing hid hrec
  obtain ⟨outs, hseg, hlen, hcase⟩ := hrun.explicit
  rw [deleteTargets_length] at hlen
  have hmain : ∃ outs : List Outcome,
      (DeleteRecords Do RelativeName RRof zone records s).2.log =
        s2.log ++ (((matched RelativeName RRof zone existing records).take outs.length).filterMap
          (fun record => (firstMatch RelativeName RRof zone existing record).map
            (fun e => Request.deleteRecord domainID e.ID))).zip outs ∧
      outs.length ≤ (matched RelativeName RRof zone existing records).length ∧
      (((∀ o ∈ outs, deleteError o = none) ∧
          outs.length = (matched RelativeName RRof zone existing records).length ∧
          (DeleteRecords Do RelativeName RRof zone records s).1 =
            (matched RelativeName RRof zone existing records, none)) ∨
        (∃ k e, outs.length = k + 1 ∧ (∀ o ∈ outs.take k, deleteError o = none) ∧
          (outs.get? k).bind deleteError = some e ∧
          (DeleteRecords Do RelativeName RRof zone records s).1 =
            ((matched RelativeName RRof zone existing records).take k, some e))) := by
    refine ⟨outs, ?_, hlen, ?_⟩
    · rw [hdel, hlog, hseg, deleteTargets_take]
    · rw [hdel]
      rcases hcase with ⟨hall, hl, hn, he⟩ | ⟨e, hl, hall, hbad, he⟩
      · left
        rw [deleteTargets_length] at hl hn
        refine ⟨hall, hl, ?_⟩
        apply Prod.ext
        · simpa [hn] using hres
        · exact he
      · right
        refine ⟨n, e, hl, hall, hbad, ?_⟩
        apply Prod.ext
        · simpa using hres
        · exact he
  refine ⟨hmain, ?_⟩
  intro hnone
  have hm : matched RelativeName RRof zone existing records = [] := by
    simp only [matched, List.filter_eq_nil_iff]
    intro a ha
    simp [hnone a ha]
  obtain ⟨outs2, hlog2, hlen2, hcase2⟩ := hmain
  rw [hm] at hlen2 hcase2 hlog2
  have houts : outs2 = [] := List.length_eq_zero.mp (Nat.le_zero.mp (by simpa using hlen2))
  subst houts
  rcases hcase2 with ⟨_, _, hr⟩ | ⟨k, e, hl, _⟩
  · exact ⟨hr, by simpa using hlog2⟩
  · simp at hl

/-- Witness for C4: an input record whose data matches nothing in the zone; the operation
succeeds with an empty list and the log holds the two listings only. -/
theorem DeleteRecords_result_witness :
    (DeleteRecords registrarDo RelativeNameV1 id "example.com."
        [(⟨"A", "a", "9.9.9.9", 0⟩ : RR)] (start exampleRegistrar)).1 = ([], none) ∧
    (DeleteRecords registrarDo RelativeNameV1 id "example.com."
        [(⟨"A", "a", "9.9.9.9", 0⟩ : RR)] (start exampleRegistrar)).2.log =
      [(Request.listDomains, Outcome.resp (domainsResponse [⟨7, "example.com"⟩])),
       (Request.listRecords 7, Outcome.resp (recordsResponse exampleRegistrar.records))] :=
  (DeleteRecords_result registrarDo RelativeNameV1 id "example.com."
      [(⟨"A", "a", "9.9.9.9", 0⟩ : RR)] (start exampleRegistrar)
      { world := exampleRegistrar,
        log := [(Request.listDomains, Outcome.resp (domainsResponse [⟨7, "example.com"⟩]))] }
      { world := exampleRegistrar,
        log := [(Request.listDomains, Outcome.resp (domainsResponse [⟨7, "example.com"⟩])),
          (Request.listRecords 7, Outcome.resp (recordsResponse exampleRegistrar.records))] }
      7 exampleRegistrar.records (by rfl) (by rfl)).2 (by decide)

/-- C3: once the zone has resolved and the listing returned `existing`, the delete calls of
`DeleteRecords` are, in order, calls for the ids of an initial part of the target records,
and nothing else is sent.  Every target record is the first existing record, in fetched
order, that equals some input record in host, type and data.  An existing record that
differs from every input record in host, type or data is not a target record, and, unless
another existing record carries the same id, no delete call is issued for its id. -/
theorem DeleteRecords_exact_match {σ Record : Type} (Do : Request → σ → Outcome × σ)
    (RelativeName : String → String → String) (RRof : Record → RR) (zone : String)
    (records : List Record) (s s1 s2 : Run σ) (domainID : Int) (existing : List dnsRecord)
    (hid : getDomainID Do zone s = ((domainID, none), s1))
    (hrec : getDNSRecords Do domainID s1 = ((existing, none), s2)) :
    ∃ (seg : List Exchange) (m : Nat),
      (DeleteRecords Do RelativeName RRof zone records s).2.log = s2.log ++ seg ∧
      seg.map Prod.fst =
        ((deleteTargetRecords RelativeName RRof zone existing records).take m).map
          (fun e => Request.deleteRecord domainID e.ID) ∧
      (∀ e ∈ deleteTargetRecords RelativeName RRof zone existing records,
        ∃ record ∈ records,
          existing.find? (fun x => decide (x.Host = RelativeName (RRof record).Name zone ∧
            x.Typ = (RRof record).Typ ∧ x.Data = (RRof record).Data)) = some e ∧
          e ∈ existing ∧ e.Host = RelativeName (RRof record).Name zone ∧
          e.Typ = (RRof record).Typ ∧ e.Data = (RRof record).Data) ∧
      (∀ e ∈ existing,
        (∀ record ∈ records, ¬ (e.Host = RelativeName (RRof record).Name zone ∧
          e.Typ = (RRof record).Typ ∧ e.Data = (RRof record).Data)) →
        e ∉ deleteTargetRecords RelativeName RRof zone existing records ∧
        ((∀ e2 ∈ existing, e2.ID = e.ID → e2 = e) →
          ∀ x ∈ seg, x.1 ≠ Request.deleteRecord domainID e.ID)) := by
  obtain ⟨seg, n, hlog, hrun, -⟩ :=
    deleteLoop_run Do RelativeName RRof zone domainID existing records [] s2
  have hdel := DeleteRecords_eq_loop Do RelativeName RRof zone records s s1 s2 domainID
    existing hid hrec
  obtain ⟨m, hm⟩ := hrun.requests
  have htarget : ∀ e ∈ deleteTargetRecords RelativeName RRof zone existing records,
      ∃ record ∈ records,
        existing.find? (fun x => decide (x.Host = RelativeName (RRof record).Name zone ∧
          x.Typ = (RRof record).Typ ∧ x.Data = (RRof record).Data)) = some e ∧
        e ∈ existing ∧ e.Host = RelativeName (RRof record).Name zone ∧
        e.Typ = (RRof record).Typ ∧ e.Data = (RRof record).Data := by
    intro e he
    obtain ⟨record, hr, hf⟩ := List.mem_filterMap.mp he
    have hp := List.find?_some hf
    simp only [sameNameTypeData, decide_eq_true_eq] at hp
    exact ⟨record, hr, hf, List.mem_of_find?_eq_some hf, hp.1, hp.2.1, hp.2.2⟩
  refine ⟨seg, m, by rw [hdel, hlog], ?_, htarget, ?_⟩
  · rw [hm, deleteTargets, List.map_take]
  · intro e _ hdiff
    have hnot : e ∉ deleteTargetRecords RelativeName RRof zone existing records := by
      intro he
      obtain ⟨record, hr, -, -, h1, h2, h3⟩ := htarget e he
      exact hdiff record hr ⟨h1, h2, h3⟩
    refine ⟨hnot, ?_⟩
    intro huniq x hx hxe
    have hmem : x.1 ∈ seg.map Prod.fst := List.mem_map_of_mem Prod.fst hx
    rw [hm, hxe, deleteTargets] at hmem
    obtain ⟨t, ht, hte⟩ := List.mem_map.mp (List.mem_of_mem_take hmem)
    have hid2 : t.ID = e.ID := by
      simpa using hte
    obtain ⟨_, _, _, htex, _⟩ := htarget t ht
    exact hnot (huniq t htex hid2 ▸ ht)

/-- Witness for C3: with existing `(a, A, 1.1.1.1)` and `(a, A, 2.2.2.2)` and input
`(a, A, 1.1.1.1)`, exactly one delete is issued, for the first record, and the second
record is still in the zone afterwards. -/
theorem DeleteRecords_exact_match_witness :
    (((DeleteRecords registrarDo RelativeNameV1 id "example.com."
        [(⟨"A", "a", "1.1.1.1", 0⟩ : RR)] (start exampleRegistrar)).2.log.map Prod.fst).filter
          (fun q => decide (q ≠ Request.listDomains ∧ q ≠ Request.listRecords 7)) =
      [Request.deleteRecord 7 1]) ∧
    (DeleteRecords registrarDo RelativeNameV1 id "example.com."
        [(⟨"A", "a", "1.1.1.1", 0⟩ : RR)] (start exampleRegistrar)).2.world.records =
      [{ ID := 2, Host := "a", Typ := "A", Data := "2.2.2.2", TTL := 3600 }] ∧
    ∃ (seg : List Exchange) (m : Nat),
      (DeleteRecords registrarDo RelativeNameV1 id "example.com."
        [(⟨"A", "a", "1.1.1.1", 0⟩ : RR)] (start exampleRegistrar)).2.log =
        [(Request.listDomains, Outcome.resp (domainsResponse [⟨7, "example.com"⟩])),
          (Request.listRecords 7, Outcome.resp (recordsResponse exampleRegistrar.records))]
          ++ seg ∧
      seg.map Prod.fst =
        ((deleteTargetRecords RelativeNameV1 id "example.com." exampleRegistrar.records
          [(⟨"A", "a", "1.1.1.1", 0⟩ : RR)]).take m).map
          (fun e => Request.deleteRecord 7 e.ID) :=
  ⟨by decide, by decide,
   (DeleteRecords_exact_match registrarDo RelativeNameV1 id "example.com."
      [(⟨"A", "a", "1.1.1.1", 0⟩ : RR)] (start exampleRegistrar)
      { world := exampleRegistrar,
        log := [(Request.listDomains, Outcome.resp (domainsResponse [⟨7, "example.com"⟩]))] }
      { world := exampleRegistrar,
        log := [(Request.listDomains, Outcome.resp (domainsResponse [⟨7, "example.com"⟩])),
          (Request.listRecords 7, Outcome.resp (recordsResponse exampleRegistrar.records))] }
      7 exampleRegistrar.records (by rfl) (by rfl)).imp
        (fun _ h => h.imp (fun _ h2 => ⟨h2.1, h2.2.1⟩))⟩

/-! ## SetRecords -/

theorem AppendRecords_requests {σ Record : Type} (Do : Request → σ → Outcome × σ)
    (RelativeName : String → String → String) (RRof : Record → RR) (zone : String)
    (records : List Record) (s : Run σ) :
    ∃ seg : List Exchange,
      (AppendRecords Do RelativeName RRof zone records s).2.log = s.log ++ seg ∧
      ∀ x ∈ seg, ∀ d r, x.1 ≠ Request.deleteRecord d r := by
  have hlog := getDomainID_log Do zone s
  cases hg : getDomainID Do zone s with
  | mk res s1 =>
    rw [hg] at hlog
    simp only at hlog
    obtain ⟨domainID, err⟩ := res
    cases err with
    | some e =>
      refine ⟨[(Request.listDomains, (Do Request.listDomains s.world).1)], ?_, ?_⟩
      · simp [AppendRecords, hg, hlog]
      · intro x hx d r
        simp only [List.mem_singleton] at hx
        simp [hx]
    | none =>
      obtain ⟨seg, n, hl, hrun, -⟩ :=
        appendLoop_run Do RelativeName RRof zone domainID records [] s1
      obtain ⟨m, hm⟩ := hrun.requests
      refine ⟨(Request.listDomains, (Do Request.listDomains s.world).1) :: seg, ?_, ?_⟩
      · have hl2 : (appendLoop Do RelativeName RRof zone domainID records [] s1).2.log =
            s.log ++ (Request.listDomains, (Do Request.listDomains s.world).1) :: seg := by
          rw [hl, hlog]
          simp
        simpa [AppendRecords, hg] using hl2
      · intro x hx d r hxe
        rcases List.mem_cons.mp hx with hx | hx
        · simp [hx] at hxe
        · have hmem : x.1 ∈ seg.map Prod.fst := List.mem_map_of_mem Prod.fst hx
          rw [hm, hxe] at hmem
          obtain ⟨record, -, hreq⟩ := List.mem_map.mp (List.mem_of_mem_take hmem)
          simp [createRequest] at hreq

theorem SetRecords_eq_loop {σ Record : Type} (Do : Request → σ → Outcome × σ)
    (RelativeName : String → String → String) (RRof : Record → RR) (zone : String)
    (records : List Record) (s s1 s2 : Run σ) (domainID : Int) (existing : List dnsRecord)
    (hid : getDomainID Do zone s = ((domainID, none), s1))
    (hrec : getDNSRecords Do domainID s1 = ((existing, none), s2)) :
    SetRecords Do RelativeName RRof zone records s =
      match setLoop Do RelativeName RRof zone domainID existing records s2 with
      | (some err, s3) => (([], some err), s3)
      | (none, s3) => AppendRecords Do RelativeName RRof zone records s3 := by
  simp [SetRecords, hid, hrec]

/-- C5: once the zone has resolved and the listing returned `existing`, `SetRecords` issues
its delete calls fail-fast.  With `outs` the outcomes of the delete calls issued and `s3` the
state in which the delete loop leaves the run, whose log holds these delete exchanges and
nothing else after the listing: either every delete succeeded, and `SetRecords` is then
exactly `AppendRecords` of the full input list run from `s3`; or the first `k` succeeded and
call `k + 1` failed with `e`, and `SetRecords` ends in `s3` (no further delete, no create)
returning the empty list and `e`. -/
theorem SetRecords_abort {σ Record : Type} (Do : Request → σ → Outcome × σ)
    (RelativeName : String → String → String) (RRof : Record → RR) (zone : String)
    (records : List Record) (s s1 s2 : Run σ) (domainID : Int) (existing : List dnsRecord)
    (hid : getDomainID Do zone s = ((domainID, none), s1))
    (hrec : getDNSRecords Do domainID s1 = ((existing, none), s2)) :
    ∃ (outs : List Outcome) (s3 : Run σ),
      s3 = (setLoop Do RelativeName RRof zone domainID existing records s2).2 ∧
      s3.log = s2.log ++
        ((setTargets RelativeName RRof zone domainID existing records).take outs.length).zip
          outs ∧
      outs.length ≤ (setTargets RelativeName RRof zone domainID existing records).length ∧
      (((∀ o ∈ outs, deleteError o = none) ∧
          outs.length = (setTargets RelativeName RRof zone domainID existing records).length ∧
          SetRecords Do RelativeName RRof zone records s =
            AppendRecords Do RelativeName RRof zone records s3) ∨
        (∃ k e, outs.length = k + 1 ∧ (∀ o ∈ outs.take k, deleteError o = none) ∧
          (outs.get? k).bind deleteError = some e ∧
          SetRecords Do RelativeName RRof zone records s = (([], some e), s3))) := by
  obtain ⟨seg, n, hlog, hrun⟩ :=
    setLoop_run Do RelativeName RRof zone domainID existing records s2
  have hset := SetRecords_eq_loop Do RelativeName RRof zone records s s1 s2 domainID
    existing hid hrec
  obtain ⟨outs, hseg, hlen, hcase⟩ := hrun.explicit
  refine ⟨outs, _, rfl, by rw [hlog, hseg], hlen, ?_⟩
  rcases hcase with ⟨hall, hl, -, he⟩ | ⟨e, hl, hall, hbad, he⟩
  · left
    refine ⟨hall, hl, ?_⟩
    rw [hset]
    cases hsl : setLoop Do RelativeName RRof zone domainID existing records s2 with
    | mk r s3 =>
      rw [hsl] at he
      simp only at he
      subst he
      rfl
  · right
    refine ⟨n, e, hl, hall, hbad, ?_⟩
    rw [hset]
    cases hsl : setLoop Do RelativeName RRof zone domainID existing records s2 with
    | mk r s3 =>
      rw [hsl] at he
      simp only at he
      subst he
      rfl

/-- Witness for C5: the registrar answers the only delete with a `500`; `SetRecords`
returns no record and that error, and the log ends with the failed delete: no create. -/
theorem SetRecords_abort_witness :
    SetRecords scriptedDo RelativeNameV1 id "example.com."
        [(⟨"A", "a", "2.2.2.2", 0⟩ : RR)]
        (start [Outcome.resp (domainsResponse [⟨7, "example.com"⟩]),
          Outcome.resp (recordsResponse [⟨1, "a", "A", "1.1.1.1", 3600⟩]),
          Outcome.resp (plainResponse 500 "500 Internal Server Error"),
          Outcome.resp (domainsResponse [⟨7, "example.com"⟩]),
          Outcome.resp (plainResponse 201 "201 Created")]) =
      (([], some "failed to delete DNS record: 500 Internal Server Error"),
        { world := [Outcome.resp (domainsResponse [⟨7, "example.com"⟩]),
            Outcome.resp (plainResponse 201 "201 Created")],
          log := [(Request.listDomains, Outcome.resp (domainsResponse [⟨7, "example.com"⟩])),
            (Request.listRecords 7,
              Outcome.resp (recordsResponse [⟨1, "a", "A", "1.1.1.1", 3600⟩])),
            (Request.deleteRecord 7 1,
              Outcome.resp (plainResponse 500 "500 Internal Server Error"))] }) ∧
    ∃ (outs : List Outcome) (s3 : Run (List Outcome)),
      s3.log = [(Request.listDomains, Outcome.resp (domainsResponse [⟨7, "example.com"⟩])),
            (Request.listRecords 7,
              Outcome.resp (recordsResponse [⟨1, "a", "A", "1.1.1.1", 3600⟩]))] ++
        ((setTargets RelativeNameV1 id "example.com." 7 [⟨1, "a", "A", "1.1.1.1", 3600⟩]
          [(⟨"A", "a", "2.2.2.2", 0⟩ : RR)]).take outs.length).zip outs :=
  ⟨by rfl,
   (SetRecords_abort scriptedDo RelativeNameV1 id "example.com."
      [(⟨"A", "a", "2.2.2.2", 0⟩ : RR)]
      (start [Outcome.resp (domainsResponse [⟨7, "example.com"⟩]),
          Outcome.resp (recordsResponse [⟨1, "a", "A", "1.1.1.1", 3600⟩]),
          Outcome.resp (plainResponse 500 "500 Internal Server Error"),
          Outcome.resp (domainsResponse [⟨7, "example.com"⟩]),
          Outcome.resp (plainResponse 201 "201 Created")])
      { world := [Outcome.resp (recordsResponse [⟨1, "a", "A", "1.1.1.1", 3600⟩]),
          Outcome.resp (plainResponse 500 "500 Internal Server Error"),
          Outcome.resp (domainsResponse [⟨7, "example.com"⟩]),
          Outcome.resp (plainResponse 201 "201 Created")],
        log := [(Request.listDomains, Outcome.resp (domainsResponse [⟨7, "example.com"⟩]))] }
      { world := [Outcome.resp (plainResponse 500 "500 Internal Server Error"),
          Outcome.resp (domainsResponse [⟨7, "example.com"⟩]),
          Outcome.resp (plainResponse 201 "201 Created")],
        log := [(Request.listDomains, Outcome.resp (domainsResponse [⟨7, "example.com"⟩])),
          (Request.listRecords 7,
            Outcome.resp (recordsResponse [⟨1, "a", "A", "1.1.1.1", 3600⟩]))] }
      7 [⟨1, "a", "A", "1.1.1.1", 3600⟩] (by rfl) (by rfl)).imp
        (fun _ h => h.imp (fun _ h2 => h2.2.1))⟩

theorem mem_setTargetRecords {Record : Type} (RelativeName : String → String → String)
    (RRof : Record → RR) (zone : String) (existing : List dnsRecord) (records : List Record)
    (e : dnsRecord) :
    e ∈ setTargetRecords RelativeName RRof zone existing records ↔
      e ∈ existing ∧ ∃ record ∈ records,
        e.Host = RelativeName (RRof record).Name zone ∧ e.Typ = (RRof record).Typ := by
  simp only [setTargetRecords, List.mem_flatMap, List.mem_filter, sameNameType,
    decide_eq_true_eq]
  constructor
  · rintro ⟨record, hr, he, hm⟩
    exact ⟨he, record, hr, hm⟩
  · rintro ⟨he, record, hr, hm⟩
    exact ⟨record, hr, he, hm⟩

/-- C6: once the zone has resolved and the listing returned `existing`, the log of
`SetRecords` after the listing is a run `seg` of delete calls followed by a rest without any
delete call.  The delete calls are, in order, calls for the ids of an initial part of the
target records; the target records are exactly the existing records whose host and type
equal the relative name and type of some input record, whatever their data.  An existing
record whose host and type equal those of no input record is not a target record, and,
unless another existing record carries the same id, no delete call is issued for its id. -/
theorem SetRecords_targets {σ Record : Type} (Do : Request → σ → Outcome × σ)
    (RelativeName : String → String → String) (RRof : Record → RR) (zone : String)
    (records : List Record) (s s1 s2 : Run σ) (domainID : Int) (existing : List dnsRecord)
    (hid : getDomainID Do zone s = ((domainID, none), s1))
    (hrec : getDNSRecords Do domainID s1 = ((existing, none), s2)) :
    ∃ (seg rest : List Exchange) (m : Nat),
      (SetRecords Do RelativeName RRof zone records s).2.log = s2.log ++ (seg ++ rest) ∧
      seg.map Prod.fst =
        ((setTargetRecords RelativeName RRof zone existing records).take m).map
          (fun e => Request.deleteRecord domainID e.ID) ∧
      (∀ x ∈ rest, ∀ d r, x.1 ≠ Request.deleteRecord d r) ∧
      (∀ e, e ∈ setTargetRecords RelativeName RRof zone existing records ↔
        e ∈ existing ∧ ∃ record ∈ records,
          e.Host = RelativeName (RRof record).Name zone ∧ e.Typ = (RRof record).Typ) ∧
      (∀ e ∈ existing,
        (∀ record ∈ records, ¬ (e.Host = RelativeName (RRof record).Name zone ∧
          e.Typ = (RRof record).Typ)) →
        e ∉ setTargetRecords RelativeName RRof zone existing records ∧
        ((∀ e2 ∈ existing, e2.ID = e.ID → e2 = e) →
          ∀ x ∈ seg ++ rest, x.1 ≠ Request.deleteRecord domainID e.ID)) := by
  obtain ⟨seg, n, hlog, hrun⟩ :=
    setLoop_run Do RelativeName RRof zone domainID existing records s2
  have hset := SetRecords_eq_loop Do RelativeName RRof zone records s s1 s2 domainID
    existing hid hrec
  obtain ⟨m, hm⟩ := hrun.requests
  have hrest : ∃ rest : List Exchange,
      (SetRecords Do RelativeName RRof zone records s).2.log = s2.log ++ (seg ++ rest) ∧
      ∀ x ∈ rest, ∀ d r, x.1 ≠ Request.deleteRecord d r := by
    rw [hset]
    cases hsl : setLoop Do RelativeName RRof zone domainID existing records s2 with
    | mk r s3 =>
      rw [hsl] at hlog
      simp only at hlog
      cases r with
      | some err => exact ⟨[], by simp [hlog], by simp⟩
      | none =>
        obtain ⟨rest, hl, hnd⟩ := AppendRecords_requests Do RelativeName RRof zone records s3
        refine ⟨rest, ?_, hnd⟩
        simp only
        rw [hl, hlog, List.append_assoc]
  obtain ⟨rest, hl, hnd⟩ := hrest
  refine ⟨seg, rest, m, hl, ?_, hnd,
    mem_setTargetRecords RelativeName RRof zone existing records, ?_⟩
  · rw [hm, setTargets, List.map_take]
  · intro e _ hdiff
    have hnot : e ∉ setTargetRecords RelativeName RRof zone existing records := by
      intro he
      obtain ⟨-, record, hr, hmatch⟩ :=
        (mem_setTargetRecords RelativeName RRof zone existing records e).mp he
      exact hdiff record hr hmatch
    refine ⟨hnot, ?_⟩
    intro huniq x hx hxe
    rcases List.mem_append.mp hx with hx | hx
    · have hmem : x.1 ∈ seg.map Prod.fst := List.mem_map_of_mem Prod.fst hx
      rw [hm, hxe, setTargets] at hmem
      obtain ⟨t, ht, hte⟩ := List.mem_map.mp (List.mem_of_mem_take hmem)
      have hid2 : t.ID = e.ID := by
        simpa using hte
      have htex := ((mem_setTargetRecords RelativeName RRof zone existing records t).mp ht).1
      exact hnot (huniq t htex hid2 ▸ ht)
    · exact hnd x hx _ _ hxe

/-- Witness for C6: the zone holds `(a, A, 1.1.1.1)`, `(a, A, 2.2.2.2)` and a `TXT` record
under the same name; setting `(a, A, 3.3.3.3)` deletes the two address records, whatever
their data, and leaves the `TXT` record in place. -/
theorem SetRecords_targets_witness :
    (SetRecords registrarDo RelativeNameV1 id "example.com."
        [(⟨"A", "a", "3.3.3.3", 0⟩ : RR)] (start exampleRegistrarTXT)).2.world.records =
      [⟨3, "a", "TXT", "hello", 3600⟩, ⟨4, "a", "A", "3.3.3.3", 3600⟩] ∧
    ∃ (seg rest : List Exchange) (m : Nat),
      (SetRecords registrarDo RelativeNameV1 id "example.com."
        [(⟨"A", "a", "3.3.3.3", 0⟩ : RR)] (start exampleRegistrarTXT)).2.log =
        [(Request.listDomains, Outcome.resp (domainsResponse [⟨7, "example.com"⟩])),
          (Request.listRecords 7, Outcome.resp (recordsResponse exampleRegistrarTXT.records))]
          ++ (seg ++ rest) ∧
      seg.map Prod.fst =
        ((setTargetRecords RelativeNameV1 id "example.com." exampleRegistrarTXT.records
          [(⟨"A", "a", "3.3.3.3", 0⟩ : RR)]).take m).map
          (fun e => Request.deleteRecord 7 e.ID) :=
  ⟨by decide,
   (SetRecords_targets registrarDo RelativeNameV1 id "example.com."
      [(⟨"A", "a", "3.3.3.3", 0⟩ : RR)] (start exampleRegistrarTXT)
      { world := exampleRegistrarTXT,
        log := [(Request.listDomains, Outcome.resp (domainsResponse [⟨7, "example.com"⟩]))] }
      { world := exampleRegistrarTXT,
        log := [(Request.listDomains, Outcome.resp (domainsResponse [⟨7, "example.com"⟩])),
          (Request.listRecords 7,
            Outcome.resp (recordsResponse exampleRegistrarTXT.records))] }
      7 exampleRegistrarTXT.records (by rfl) (by rfl)).imp
        (fun _ h => h.imp (fun _ h2 => h2.imp (fun _ h3 => ⟨h3.1, h3.2.1⟩)))⟩

/-! ## Non-success responses -/

theorem Reported.of_none {x : Exchange} (err : Option Error) (h : Reported x none) :
    Reported x err := by
  intro r hr hne
  obtain ⟨e, _, _, he, _⟩ := h r hr hne
  cases he

theorem ReportsAll.refl {σ : Type} (s : Run σ) (err : Option Error) : ReportsAll s s err :=
  ⟨[], by simp, by simp⟩

theorem ReportsAll.trans {σ : Type} {s t u : Run σ} {err : Option Error}
    (h1 : ReportsAll s t none) (h2 : ReportsAll t u err) : ReportsAll s u err := by
  obtain ⟨seg1, hl1, hr1⟩ := h1
  obtain ⟨seg2, hl2, hr2⟩ := h2
  refine ⟨seg1 ++ seg2, by rw [hl2, hl1, List.append_assoc], ?_⟩
  intro x hx
  rcases List.mem_append.mp hx with hx | hx
  · exact (hr1 x hx).of_none err
  · exact hr2 x hx

theorem createError_reported (domainID : Int) (record : dnsRecord) (o : Outcome) :
    Reported (Request.createRecord domainID record, o) (createError o) := by
  intro r hr hne
  simp only at hr
  subst hr
  simp only [successStatus] at hne
  exact ⟨"failed to create DNS record: " ++ r.Status ++ " - " ++ r.Body,
    "failed to create DNS record: ", " - " ++ r.Body,
    by simp [createError, hne], by simp [String.append_assoc]⟩

theorem deleteError_reported (domainID recordID : Int) (o : Outcome) :
    Reported (Request.deleteRecord domainID recordID, o) (deleteError o) := by
  intro r hr hne
  simp only at hr
  subst hr
  simp only [successStatus] at hne
  exact ⟨"failed to delete DNS record: " ++ r.Status, "failed to delete DNS record: ", "",
    by simp [deleteError, hne], by simp⟩

theorem getDomainID_reports {σ : Type} (Do : Request → σ → Outcome × σ) (zone : String)
    (s : Run σ) : ReportsAll s (getDomainID Do zone s).2 (getDomainID Do zone s).1.2 := by
  refine ⟨[(Request.listDomains, (Do Request.listDomains s.world).1)],
    by rw [getDomainID_log], ?_⟩
  intro x hx r hr hne
  simp only [List.mem_singleton] at hx
  subst hx
  simp only [successStatus] at hr hne
  exact ⟨"API request failed: " ++ r.Status, "API request failed: ", "",
    by simp [getDomainID, send, hr, hne], by simp⟩

theorem getDNSRecords_reports {σ : Type} (Do : Request → σ → Outcome × σ) (domainID : Int)
    (s : Run σ) :
    ReportsAll s (getDNSRecords Do domainID s).2 (getDNSRecords Do domainID s).1.2 := by
  refine ⟨[(Request.listRecords domainID, (Do (Request.listRecords domainID) s.world).1)],
    by rw [getDNSRecords_log], ?_⟩
  intro x hx r hr hne
  simp only [List.mem_singleton] at hx
  subst hx
  simp only [successStatus] at hr hne
  exact ⟨"API request failed: " ++ r.Status, "API request failed: ", "",
    by simp [getDNSRecords, send, hr, hne], by simp⟩

theorem FailFastRun.reported {errOf : Outcome → Option Error} {reqs : List Request}
    {seg : List Exchange} {n : Nat} {err : Option Error}
    (h : FailFastRun errOf reqs seg n err)
    (hrep : ∀ req ∈ reqs, ∀ o, Reported (req, o) (errOf o)) :
    ∀ x ∈ seg, Reported x err := by
  induction h with
  | done => simp
  | fail req rest o e h =>
    intro x hx
    simp only [List.mem_singleton] at hx
    subst hx
    rw [← h]
    exact hrep req (List.mem_cons_self _ _) o
  | step req rest o seg n err h hrest ih =>
    intro x hx
    rcases List.mem_cons.mp hx with hx | hx
    · subst hx
      have := hrep req (List.mem_cons_self _ _) o
      rw [h] at this
      exact this.of_none err
    · exact ih (fun q hq => hrep q (List.mem_cons_of_mem _ hq)) x hx

theorem appendLoop_reports {σ Record : Type} (Do : Request → σ → Outcome × σ)
    (RelativeName : String → String → String) (RRof : Record → RR) (zone : String)
    (domainID : Int) (records created : List Record) (s : Run σ) :
    ReportsAll s (appendLoop Do RelativeName RRof zone domainID records created s).2
      (appendLoop Do RelativeName RRof zone domainID records created s).1.2 := by
  obtain ⟨seg, n, hlog, hrun, -⟩ :=
    appendLoop_run Do RelativeName RRof zone domainID records created s
  refine ⟨seg, hlog, hrun.reported ?_⟩
  intro req hreq o
  obtain ⟨record, -, rfl⟩ := List.mem_map.mp hreq
  exact createError_reported _ _ o

theorem setLoop_reports {σ Record : Type} (Do : Request → σ → Outcome × σ)
    (RelativeName : String → String → String) (RRof : Record → RR) (zone : String)
    (domainID : Int) (existing : List dnsRecord) (records : List Record) (s : Run σ) :
    ReportsAll s (setLoop Do RelativeName RRof zone domainID existing records s).2
      (setLoop Do RelativeName RRof zone domainID existing records s).1 := by
  obtain ⟨seg, n, hlog, hrun⟩ :=
    setLoop_run Do RelativeName RRof zone domainID existing records s
  refine ⟨seg, hlog, hrun.reported ?_⟩
  intro req hreq o
  obtain ⟨e, -, rfl⟩ := List.mem_map.mp hreq
  exact deleteError_reported _ _ o

theorem deleteLoop_reports {σ Record : Type} (Do : Request → σ → Outcome × σ)
    (RelativeName : String → String → String) (RRof : Record → RR) (zone : String)
    (domainID : Int) (existing : List dnsRecord) (records deleted : List Record)
    (s : Run σ) :
    ReportsAll s (deleteLoop Do RelativeName RRof zone domainID existing records deleted s).2
      (deleteLoop Do RelativeName RRof zone domainID existing records deleted s).1.2 := by
  obtain ⟨seg, n, hlog, hrun, -⟩ :=
    deleteLoop_run Do RelativeName RRof zone domainID existing records deleted s
  refine ⟨seg, hlog, hrun.reported ?_⟩
  intro req hreq o
  obtain ⟨e, -, rfl⟩ := List.mem_map.mp hreq
  exact deleteError_reported _ _ o

theorem GetRecords_reports {σ : Type} (Do : Request → σ → Outcome × σ) (zone : String)
    (s : Run σ) : ReportsAll s (GetRecords Do zone s).2 (GetRecords Do zone s).1.2 := by
  have h1 := getDomainID_reports Do zone s
  cases hg : getDomainID Do zone s with
  | mk res s1 =>
    obtain ⟨domainID, err⟩ := res
    rw [hg] at h1
    cases err with
    | some e => simpa [GetRecords, hg] using h1
    | none =>
      have h2 := getDNSRecords_reports Do domainID s1
      cases hr : getDNSRecords Do domainID s1 with
      | mk res2 s2 =>
        obtain ⟨recs, err2⟩ := res2
        rw [hr] at h2
        cases err2 with
        | some e => simpa [GetRecords, hg, hr] using h1.trans h2
        | none => simpa [GetRecords, hg, hr] using h1.trans h2

theorem AppendRecords_reports {σ Record : Type} (Do : Request → σ → Outcome × σ)
    (RelativeName : String → String → String) (RRof : Record → RR) (zone : String)
    (records : List Record) (s : Run σ) :
    ReportsAll s (AppendRecords Do RelativeName RRof zone records s).2
      (AppendRecords Do RelativeName RRof zone records s).1.2 := by
  have h1 := getDomainID_reports Do zone s
  cases hg : getDomainID Do zone s with
  | mk res s1 =>
    obtain ⟨domainID, err⟩ := res
    rw [hg] at h1
    cases err with
    | some e => simpa [AppendRecords, hg] using h1
    | none =>
      have h2 := appendLoop_reports Do RelativeName RRof zone domainID records [] s1
      simpa [AppendRecords, hg] using h1.trans h2

theorem DeleteRecords_reports {σ Record : Type} (Do : Request → σ → Outcome × σ)
    (RelativeName : String → String → String) (RRof : Record → RR) (zone : String)
    (records : List Record) (s : Run σ) :
    ReportsAll s (DeleteRecords Do RelativeName RRof zone records s).2
      (DeleteRecords Do RelativeName RRof zone records s).1.2 := by
  have h1 := getDomainID_reports Do zone s
  cases hg : getDomainID Do zone s with
  | mk res s1 =>
    obtain ⟨domainID, err⟩ := res
    rw [hg] at h1
    cases err with
    | some e => simpa [DeleteRecords, hg] using h1
    | none =>
      have h2 := getDNSRecords_reports Do domainID s1
      cases hr : getDNSRecords Do domainID s1 with
      | mk res2 s2 =>
        obtain ⟨existing, err2⟩ := res2
        rw [hr] at h2
        cases err2 with
        | some e => simpa [DeleteRecords, hg, hr] using h1.trans h2
        | none =>
          have h3 := deleteLoop_reports Do RelativeName RRof zone domainID existing records
            [] s2
          simpa [DeleteRecords, hg, hr] using (h1.trans h2).trans h3

theorem SetRecords_reports {σ Record : Type} (Do : Request → σ → Outcome × σ)
    (RelativeName : String → String → String) (RRof : Record → RR) (zone : String)
    (records : List Record) (s : Run σ) :
    ReportsAll s (SetRecords Do RelativeName RRof zone records s).2
      (SetRecords Do RelativeName RRof zone records s).1.2 := by
  have h1 := getDomainID_reports Do zone s
  cases hg : getDomainID Do zone s with
  | mk res s1 =>
    obtain ⟨domainID, err⟩ := res
    rw [hg] at h1
    cases err with
    | some e => simpa [SetRecords, hg] using h1
    | none =>
      have h2 := getDNSRecords_reports Do domainID s1
      cases hr : getDNSRecords Do domainID s1 with
      | mk res2 s2 =>
        obtain ⟨existing, err2⟩ := res2
        rw [hr] at h2
        cases err2 with
        | some e => simpa [SetRecords, hg, hr] using h1.trans h2
        | none =>
          have h3 := setLoop_reports Do RelativeName RRof zone domainID existing records s2
          cases hs : setLoop Do RelativeName RRof zone domainID existing records s2 with
          | mk err3 s3 =>
            rw [hs] at h3
            cases err3 with
            | some e => simpa [SetRecords, hg, hr, hs] using (h1.trans h2).trans h3
            | none =>
              have h4 := AppendRecords_reports Do RelativeName RRof zone records s3
              simpa [SetRecords, hg, hr, hs] using ((h1.trans h2).trans h3).trans h4

/-- C9: for each of the four public operations, in every world and from every state, every
exchange the operation adds to the log is reported: whenever a response it received has a
status other than the success status of its endpoint (200 for the two listings, 201 for
create, 204 for delete), the operation returns an error whose message contains the `Status`
of that response. -/
theorem nonSuccess_is_reported {σ Record : Type} (Do : Request → σ → Outcome × σ)
    (RelativeName : String → String → String) (RRof : Record → RR) (zone : String)
    (records : List Record) (s : Run σ) :
    (∃ seg : List Exchange, (GetRecords Do zone s).2.log = s.log ++ seg ∧
      ∀ x ∈ seg, ∀ r : Response, x.2 = Outcome.resp r → r.StatusCode ≠ successStatus x.1 →
        ∃ e pre post, (GetRecords Do zone s).1.2 = some e ∧ e = pre ++ r.Status ++ post) ∧
    (∃ seg : List Exchange,
      (AppendRecords Do RelativeName RRof zone records s).2.log = s.log ++ seg ∧
      ∀ x ∈ seg, ∀ r : Response, x.2 = Outcome.resp r → r.StatusCode ≠ successStatus x.1 →
        ∃ e pre post, (AppendRecords Do RelativeName RRof zone records s).1.2 = some e ∧
          e = pre ++ r.Status ++ post) ∧
    (∃ seg : List Exchange,
      (SetRecords Do RelativeName RRof zone records s).2.log = s.log ++ seg ∧
      ∀ x ∈ seg, ∀ r : Response, x.2 = Outcome.resp r → r.StatusCode ≠ successStatus x.1 →
        ∃ e pre post, (SetRecords Do RelativeName RRof zone records s).1.2 = some e ∧
          e = pre ++ r.Status ++ post) ∧
    (∃ seg : List Exchange,
      (DeleteRecords Do RelativeName RRof zone records s).2.log = s.log ++ seg ∧
      ∀ x ∈ seg, ∀ r : Response, x.2 = Outcome.resp r → r.StatusCode ≠ successStatus x.1 →
        ∃ e pre post, (DeleteRecords Do RelativeName RRof zone records s).1.2 = some e ∧
          e = pre ++ r.Status ++ post) :=
  ⟨GetRecords_reports Do zone s, AppendRecords_reports Do RelativeName RRof zone records s,
    SetRecords_reports Do RelativeName RRof zone records s,
    DeleteRecords_reports Do RelativeName RRof zone records s⟩

/-- Witness for C9: a `401` on the domain listing surfaces in the error of `GetRecords`. -/
theorem nonSuccess_is_reported_witness :
    (GetRecords scriptedDo "example.com"
      (start [Outcome.resp (plainResponse 401 "401 Unauthorized")])).1.2 =
        some "API request failed: 401 Unauthorized" ∧
    ∃ seg : List Exchange,
      (GetRecords scriptedDo "example.com"
        (start [Outcome.resp (plainResponse 401 "401 Unauthorized")])).2.log = [] ++ seg ∧
      ∀ x ∈ seg, ∀ r : Response, x.2 = Outcome.resp r → r.StatusCode ≠ successStatus x.1 →
        ∃ e pre post, (GetRecords scriptedDo "example.com"
          (start [Outcome.resp (plainResponse 401 "401 Unauthorized")])).1.2 = some e ∧
          e = pre ++ r.Status ++ post :=
  ⟨by decide,
   (nonSuccess_is_reported scriptedDo RelativeNameV1 id "example.com" ([] : List RR)
      (start [Outcome.resp (plainResponse 401 "401 Unauthorized")])).1⟩

/-! ## GetRecords -/

theorem wrapInt64_of_fits (x : Int) (h1 : -(2 ^ 63) ≤ x) (h2 : x < 2 ^ 63) :
    wrapInt64 x = x := by
  unfold wrapInt64
  rw [Int.emod_eq_of_lt (by omega) (by omega)]
  omega

/-- C10: when the zone resolves and the listing answers `200` with the record list `recs`,
`GetRecords` returns without error a list of the same length whose `i`-th element has the
type and data of the `i`-th registrar record, its host verbatim as name, and as ttl the
int64 product `time.Duration(record.TTL) * time.Second`; for every ttl up to 9223372036
seconds in magnitude that product is exactly the ttl times 1000000000 nanoseconds. -/
theorem GetRecords_translates {σ : Type} (Do : Request → σ → Outcome × σ) (zone : String)
    (s s1 : Run σ) (domainID : Int) (resp : Response) (w : σ) (recs : List dnsRecord)
    (hid : getDomainID Do zone s = ((domainID, none), s1))
    (hDo : Do (Request.listRecords domainID) s1.world = (Outcome.resp resp, w))
    (hCode : resp.StatusCode = 200) (hDec : resp.records = Decoded.ok recs) :
    (GetRecords Do zone s).1.2 = none ∧
    (GetRecords Do zone s).1.1.length = recs.length ∧
    (∀ (i : Nat) (record : dnsRecord), recs[i]? = some record →
      (GetRecords Do zone s).1.1[i]? =
        some { Typ := record.Typ, Name := record.Host, Data := record.Data,
               TTL := wrapInt64 (record.TTL * Second) } ∧
      (-9223372036 ≤ record.TTL → record.TTL ≤ 9223372036 →
        wrapInt64 (record.TTL * Second) = record.TTL * 1000000000)) := by
  have hget : (GetRecords Do zone s).1 = (recs.map toRR, none) := by
    simp [GetRecords, hid, getDNSRecords, send, hDo, hCode, hDec, StatusOK]
  rw [hget]
  refine ⟨rfl, by simp, ?_⟩
  intro i record hi
  refine ⟨by simp [hi, toRR], ?_⟩
  intro h1 h2
  rw [wrapInt64_of_fits]
  · rfl
  · simp only [Second]; omega
  · simp only [Second]; omega

/-- Witness for C10: the example zone is listed in order, ttl 3600 becoming one hour. -/
theorem GetRecords_translates_witness :
    (GetRecords registrarDo "example.com." (start exampleRegistrar)).1 =
      ([⟨"A", "a", "1.1.1.1", 3600000000000⟩, ⟨"A", "a", "2.2.2.2", 3600000000000⟩], none) ∧
    (GetRecords registrarDo "example.com." (start exampleRegistrar)).1.1.length =
      exampleRegistrar.records.length :=
  ⟨by decide,
   (GetRecords_translates registrarDo "example.com." (start exampleRegistrar)
      { world := exampleRegistrar,
        log := [(Request.listDomains, Outcome.resp (domainsResponse [⟨7, "example.com"⟩]))] }
      7 (recordsResponse exampleRegistrar.records) exampleRegistrar exampleRegistrar.records
      (by rfl) (by rfl) (by rfl) (by rfl)).2.1⟩

/-! ## The conversion `int(d.Seconds())` -/

theorem ilog2Aux_spec (fuel n : Nat) (h : n ≤ fuel) (hn : 0 < n) :
    2 ^ ilog2Aux fuel n ≤ n ∧ n < 2 ^ (ilog2Aux fuel n + 1) := by
  induction fuel generalizing n with
  | zero => omega
  | succ fuel ih =>
    rw [ilog2Aux]
    by_cases h2 : n < 2
    · rw [if_pos h2]
      simp
      omega
    · rw [if_neg h2]
      obtain ⟨ih1, ih2⟩ := ih (n / 2) (by omega) (by omega)
      rw [pow_succ] at ih2
      rw [pow_succ, pow_succ]
      omega

theorem ilog2_spec (n : Nat) (hn : 0 < n) : 2 ^ ilog2 n ≤ n ∧ n < 2 ^ (ilog2 n + 1) :=
  ilog2Aux_spec n n (Nat.le_refl n) hn

theorem roundHalfEven_ge (a b : Nat) : a / b ≤ roundHalfEven a b := by
  unfold roundHalfEven
  simp only
  split
  · exact Nat.le_refl _
  · split
    · omega
    · split <;> omega

theorem roundHalfEven_le (a b : Nat) (hb : 0 < b) :
    2 * (b * roundHalfEven a b) ≤ 2 * a + b := by
  have hdiv := Nat.div_add_mod a b
  have hmod := Nat.mod_lt a hb
  unfold roundHalfEven
  simp only
  generalize a / b = q at *
  generalize a % b = r at *
  split
  · rw [← hdiv]; omega
  · split
    · rw [← hdiv, Nat.mul_add]; omega
    · split
      · rw [← hdiv]; omega
      · rw [← hdiv, Nat.mul_add]; omega

/-- The exponent found for `num / den` is below `k` as soon as `num / den < 2 ^ k`. -/
theorem floorLog2_lt (num den k : Nat) (hn : 0 < num) (hd : 0 < den)
    (h : num < 2 ^ k * den) : floorLog2 num den < (k : Int) := by
  obtain ⟨ha, -⟩ := ilog2_spec num hn
  obtain ⟨-, hb⟩ := ilog2_spec den hd
  have hlt : 2 ^ ilog2 num < 2 ^ (k + (ilog2 den + 1)) := by
    calc 2 ^ ilog2 num ≤ num := ha
      _ < 2 ^ k * den := h
      _ ≤ 2 ^ k * 2 ^ (ilog2 den + 1) := Nat.mul_le_mul_left _ (Nat.le_of_lt hb)
      _ = 2 ^ (k + (ilog2 den + 1)) := (pow_add 2 k _).symm
  have hexp : ilog2 num < k + (ilog2 den + 1) := (Nat.pow_lt_pow_iff_right (by norm_num)).mp hlt
  unfold floorLog2
  simp only
  split
  · rename_i hc
    by_cases he : (ilog2 num : Int) - (ilog2 den : Int) < k
    · exact he
    · exfalso
      have heq : (ilog2 num : Int) - (ilog2 den : Int) = k := by omega
      rw [heq] at hc
      simp at hc
      have : den * 2 ^ k ≤ num := hc
      rw [Nat.mul_comm] at this
      omega
  · omega

/-- The first rounding of `Seconds`: the fraction `nsec / 1e9` as a float. -/
theorem round53_frac (nsec : Nat) (h : nsec < 1000000000) :
    (nsec = 0 ∧ round53 nsec 1000000000 = (0, 1)) ∨
    (∃ u, 53 ≤ u ∧ (round53 nsec 1000000000).2 = 2 ^ u ∧
      2 * (1000000000 * (round53 nsec 1000000000).1) ≤ 2 * (nsec * 2 ^ u) + 1000000000) := by
  by_cases h0 : nsec = 0
  · left
    exact ⟨h0, by simp [round53, h0]⟩
  · right
    have he : floorLog2 nsec 1000000000 < ((0 : Nat) : Int) :=
      floorLog2_lt nsec 1000000000 0 (by omega) (by norm_num) (by simpa using h)
    have hdown : (floorLog2 nsec 1000000000 - 52).toNat = 0 := by omega
    refine ⟨(52 - floorLog2 nsec 1000000000).toNat, by omega, by simp [round53, h0], ?_⟩
    have hr := roundHalfEven_le (nsec * 2 ^ (52 - floorLog2 nsec 1000000000).toNat)
      1000000000 (by norm_num)
    simpa [round53, h0, hdown] using hr

/-- The second rounding of `Seconds`, followed by the truncation: below `2 ^ 24` seconds
the sum `sec + frac` converts back to `sec`. -/
theorem round53_trunc (sec nsec f A : Nat) (hsec : sec < 16777216) (hnsec : nsec < 1000000000)
    (hcase : (f = 0 ∧ A = 1) ∨
      (∃ u, 53 ≤ u ∧ A = 2 ^ u ∧ 2 * (1000000000 * f) ≤ 2 * (nsec * A) + 1000000000)) :
    (round53 (sec * A + f) A).1 / (round53 (sec * A + f) A).2 = sec := by
  have hA : 0 < A := by
    rcases hcase with ⟨-, hA⟩ | ⟨u, -, hA, -⟩
    · omega
    · rw [hA]; exact Nat.pow_pos (by norm_num)
  have hfA : f < A := by
    rcases hcase with ⟨hf, hA1⟩ | ⟨u, hu, hAu, hf⟩
    · omega
    · have h53 : 2 ^ 53 ≤ A := by
        rw [hAu]; exact Nat.pow_le_pow_right (by norm_num) hu
      have hns : nsec * A ≤ 999999999 * A := Nat.mul_le_mul_right A (by omega)
      norm_num at h53
      omega
  by_cases h0 : sec * A + f = 0
  · have hs : sec = 0 := by
      rcases Nat.eq_zero_or_pos sec with hs | hs
      · exact hs
      · have : A ≤ sec * A := Nat.le_mul_of_pos_left A hs
        omega
    have hf0 : f = 0 := by omega
    simp [round53, hf0, hs]
  · have hN : sec * A + f < 2 ^ 24 * A := by
      have : (sec + 1) * A ≤ 16777216 * A := Nat.mul_le_mul_right A (by omega)
      norm_num
      rw [Nat.add_mul] at this
      omega
    have he : floorLog2 (sec * A + f) A < ((24 : Nat) : Int) :=
      floorLog2_lt (sec * A + f) A 24 (by omega) hA hN
    have hdown : (floorLog2 (sec * A + f) A - 52).toNat = 0 := by omega
    obtain ⟨v, hv⟩ : ∃ v, v = (52 - floorLog2 (sec * A + f) A).toNat := ⟨_, rfl⟩
    have hv29 : 29 ≤ v := by omega
    have hB : 2 ^ 29 ≤ 2 ^ v := Nat.pow_le_pow_right (by norm_num) hv29
    have hres : round53 (sec * A + f) A = (roundHalfEven ((sec * A + f) * 2 ^ v) A, 2 ^ v) := by
      simp [round53, h0, hdown, hv]
    rw [hres]
    simp only
    generalize 2 ^ v = B at hB
    norm_num at hB
    have hlow := roundHalfEven_ge ((sec * A + f) * B) A
    have hup := roundHalfEven_le ((sec * A + f) * B) A hA
    generalize roundHalfEven ((sec * A + f) * B) A = m at hlow hup
    apply Nat.div_eq_of_lt_le
    · have : sec * B ≤ (sec * A + f) * B / A := by
        rw [Nat.le_div_iff_mul_le hA]
        nlinarith
      omega
    · by_contra hge
      have hge2 : (sec + 1) * B ≤ m := by
        simpa [Nat.succ_eq_add_one] using hge
      have h1 : A * ((sec + 1) * B) ≤ A * m := Nat.mul_le_mul_left A hge2
      have h3 : 2 * (A * B) ≤ 2 * (f * B) + A := by nlinarith
      rcases hcase with ⟨hf, hA1⟩ | ⟨u, hu, hAu, hf⟩
      · subst hf hA1
        omega
      · have h53 : 2 ^ 53 ≤ A := by
          rw [hAu]; exact Nat.pow_le_pow_right (by norm_num) hu
        norm_num at h53
        have hfB : 2 * (1000000000 * f) * B ≤ (2 * (nsec * A) + 1000000000) * B :=
          Nat.mul_le_mul_right B hf
        have hns : nsec * (A * B) ≤ 999999999 * (A * B) := Nat.mul_le_mul_right _ (by omega)
        have hAB1 : 9007199254740992 * B ≤ A * B := Nat.mul_le_mul_right B h53
        have hAB2 : A * 536870912 ≤ A * B := Nat.mul_le_mul_left A hB
        nlinarith

/-- Below `2 ^ 24` seconds the float conversion of a non-negative duration, truncated,
is the integer quotient by one second. -/
theorem SecondsNat_trunc (d : Nat) (h : d < 16777216 * 1000000000) :
    (SecondsNat d).1 / (SecondsNat d).2 = d / 1000000000 := by
  have hsec : d / 1000000000 < 16777216 := by omega
  have hnsec : d % 1000000000 < 1000000000 := Nat.mod_lt _ (by norm_num)
  unfold SecondsNat
  simp only
  apply round53_trunc (d / 1000000000) (d % 1000000000) _ _ hsec hnsec
  rcases round53_frac (d % 1000000000) hnsec with ⟨-, h0⟩ | ⟨u, hu, hA, hf⟩
  · left
    rw [h0]
    exact ⟨rfl, rfl⟩
  · right
    exact ⟨u, hu, hA, by rw [hA]; exact hf⟩

/-- Below `2 ^ 24` seconds in magnitude, `int(d.Seconds())` is `d` converted to whole
seconds, truncated toward zero. -/
theorem durationSeconds_trunc (d : Int) (h : d.natAbs < 16777216 * 1000000000) :
    durationSeconds d = d.sign * ((d.natAbs / 1000000000 : Nat) : Int) := by
  unfold durationSeconds
  simp only
  rw [SecondsNat_trunc d.natAbs h]

theorem durationSeconds_subsecond (d : Int) (h : d.natAbs < 1000000000) :
    durationSeconds d = 0 := by
  rw [durationSeconds_trunc d (by omega)]
  have : d.natAbs / 1000000000 = 0 := Nat.div_eq_of_lt h
  rw [this]
  simp

theorem roundHalfEven_one (a : Nat) : roundHalfEven a 1 = a := by
  simp [roundHalfEven, Nat.mod_one]

/-- A whole number of seconds converts exactly: the fraction is zero and the integer part
fits the 53-bit significand. -/
theorem SecondsNat_whole (n : Nat) (h : n < 9007199254740992) :
    (SecondsNat (n * 1000000000)).1 / (SecondsNat (n * 1000000000)).2 = n := by
  have hsec : n * 1000000000 / 1000000000 = n := Nat.mul_div_cancel n (by norm_num)
  have hnsec : n * 1000000000 % 1000000000 = 0 := Nat.mul_mod_left n 1000000000
  unfold SecondsNat
  simp only [hsec, hnsec]
  have hfrac : round53 0 1000000000 = (0, 1) := by simp [round53]
  rw [hfrac]
  simp only [Nat.mul_one, Nat.add_zero]
  by_cases h0 : n = 0
  · simp [round53, h0]
  · have he : floorLog2 n 1 < ((53 : Nat) : Int) :=
      floorLog2_lt n 1 53 (by omega) (by norm_num) (by norm_num; omega)
    have hdown : (floorLog2 n 1 - 52).toNat = 0 := by omega
    have hres : round53 n 1 =
        (n * 2 ^ (52 - floorLog2 n 1).toNat, 2 ^ (52 - floorLog2 n 1).toNat) := by
      simp [round53, h0, hdown, roundHalfEven_one]
    rw [hres]
    exact Nat.mul_div_cancel n (Nat.pow_pos (by norm_num))

theorem durationSeconds_whole (n : Int) (h : n.natAbs < 9007199254740992) :
    durationSeconds (n * 1000000000) = n := by
  unfold durationSeconds
  simp only
  have habs : (n * 1000000000).natAbs = n.natAbs * 1000000000 := by
    rw [Int.natAbs_mul]
    rfl
  have hsign : (n * 1000000000).sign = n.sign := by
    rw [Int.sign_mul]
    have h1 : (1000000000 : Int).sign = 1 := by decide
    rw [h1, Int.mul_one]
  rw [habs, hsign, SecondsNat_whole n.natAbs h]
  exact Int.sign_mul_natAbs n

/-- From `2 ^ 24` seconds on, the float sum can round up to the next second. -/
theorem durationSeconds_rounds_up :
    durationSeconds (16777216 * 1000000000 + 999999999) = 16777217 := by
  decide


/-- C7 (amended): once the zone has resolved, every exchange `AppendRecords` adds to the
log is the create call for some input record, carrying `toDNSRecord` of it, whose ttl is
3600 when `int(ttl.Seconds())` is zero and that value otherwise.  For a ttl below `2 ^ 24`
seconds in magnitude `int(ttl.Seconds())` is the ttl truncated to whole seconds, and for a
ttl of a whole number `n` of seconds it is `n`; so a ttl shorter than one second, zero
included, is sent as 3600. -/
theorem AppendRecords_ttl {σ Record : Type} (Do : Request → σ → Outcome × σ)
    (RelativeName : String → String → String) (RRof : Record → RR) (zone : String)
    (records : List Record) (s s1 : Run σ) (domainID : Int)
    (hid : getDomainID Do zone s = ((domainID, none), s1)) :
    ∃ seg : List Exchange,
      (AppendRecords Do RelativeName RRof zone records s).2.log = s1.log ++ seg ∧
      ∀ x ∈ seg, ∃ record ∈ records,
        x.1 = Request.createRecord domainID (toDNSRecord RelativeName zone (RRof record)) ∧
        (toDNSRecord RelativeName zone (RRof record)).TTL =
          (if durationSeconds (RRof record).TTL = 0 then 3600
            else durationSeconds (RRof record).TTL) ∧
        ((RRof record).TTL.natAbs < 16777216 * 1000000000 →
          durationSeconds (RRof record).TTL =
            (RRof record).TTL.sign * (((RRof record).TTL.natAbs / 1000000000 : Nat) : Int)) ∧
        (∀ n : Int, n.natAbs < 9007199254740992 → (RRof record).TTL = n * 1000000000 →
          durationSeconds (RRof record).TTL = n) ∧
        ((RRof record).TTL.natAbs < 1000000000 →
          (toDNSRecord RelativeName zone (RRof record)).TTL = 3600) := by
  obtain ⟨seg, n, hlog, hrun, -⟩ :=
    appendLoop_run Do RelativeName RRof zone domainID records [] s1
  have happ : AppendRecords Do RelativeName RRof zone records s =
      appendLoop Do RelativeName RRof zone domainID records [] s1 := by
    simp [AppendRecords, hid]
  obtain ⟨m, hm⟩ := hrun.requests
  refine ⟨seg, by rw [happ, hlog], ?_⟩
  intro x hx
  have hmem : x.1 ∈ seg.map Prod.fst := List.mem_map_of_mem Prod.fst hx
  rw [hm] at hmem
  obtain ⟨record, hr, hreq⟩ := List.mem_map.mp (List.mem_of_mem_take hmem)
  have httl : (toDNSRecord RelativeName zone (RRof record)).TTL =
      (if durationSeconds (RRof record).TTL = 0 then 3600
        else durationSeconds (RRof record).TTL) := by
    unfold toDNSRecord
    simp only
    split <;> rfl
  refine ⟨record, hr, hreq.symm, httl, durationSeconds_trunc _, ?_, ?_⟩
  · intro n hn hrr
    rw [hrr]
    exact durationSeconds_whole n hn
  intro hsub
  rw [httl, durationSeconds_subsecond _ hsub]
  rfl

/-- Witness for C7: a record appended with ttl 0 is sent with ttl 3600 and is listed
afterwards with a ttl of 3600 seconds. -/
theorem AppendRecords_ttl_witness :
    (GetRecords registrarDo "example.com."
      (start (AppendRecords registrarDo RelativeNameV1 id "example.com."
        [(⟨"A", "b", "3.3.3.3", 0⟩ : RR)] (start exampleRegistrar)).2.world)).1 =
      ([⟨"A", "a", "1.1.1.1", 3600000000000⟩, ⟨"A", "a", "2.2.2.2", 3600000000000⟩,
        ⟨"A", "b", "3.3.3.3", 3600000000000⟩], none) ∧
    ∃ seg : List Exchange,
      (AppendRecords registrarDo RelativeNameV1 id "example.com."
        [(⟨"A", "b", "3.3.3.3", 0⟩ : RR)] (start exampleRegistrar)).2.log =
        [(Request.listDomains, Outcome.resp (domainsResponse [⟨7, "example.com"⟩]))] ++ seg ∧
      ∀ x ∈ seg, ∃ record ∈ [(⟨"A", "b", "3.3.3.3", 0⟩ : RR)],
        x.1 = Request.createRecord 7 (toDNSRecord RelativeNameV1 "example.com." (id record)) ∧
        (toDNSRecord RelativeNameV1 "example.com." (id record)).TTL =
          (if durationSeconds (id record).TTL = 0 then 3600
            else durationSeconds (id record).TTL) :=
  ⟨by decide,
   (AppendRecords_ttl registrarDo RelativeNameV1 id "example.com."
      [(⟨"A", "b", "3.3.3.3", 0⟩ : RR)] (start exampleRegistrar)
      { world := exampleRegistrar,
        log := [(Request.listDomains, Outcome.resp (domainsResponse [⟨7, "example.com"⟩]))] }
      7 (by rfl)).imp
        (fun _ h => ⟨h.1, fun x hx => (h.2 x hx).imp
          (fun _ h2 => ⟨h2.1, h2.2.1, h2.2.2.1⟩)⟩)⟩

/-- C7 as stated fails for a ttl of half a second: the input ttl is not zero and its whole
seconds are 0, yet the create call carries ttl 3600. -/
theorem AppendRecords_ttl_half_second :
    (AppendRecords registrarDo RelativeNameV1 id "example.com."
        [(⟨"A", "b", "3.3.3.3", 500000000⟩ : RR)] (start exampleRegistrar)).2.log.map Prod.fst =
      [Request.listDomains, Request.createRecord 7 ⟨0, "b", "A", "3.3.3.3", 3600⟩] ∧
    (500000000 : Int) ≠ 0 ∧ (500000000 : Int) / 1000000000 = 0 ∧
    ¬ (((toDNSRecord RelativeNameV1 "example.com." ⟨"A", "b", "3.3.3.3", 500000000⟩).TTL = 3600 ↔
          (500000000 : Int) = 0) ∧
        ((500000000 : Int) ≠ 0 →
          (toDNSRecord RelativeNameV1 "example.com." ⟨"A", "b", "3.3.3.3", 500000000⟩).TTL =
            (500000000 : Int) / 1000000000)) := by
  decide

/-! ## The net effect of SetRecords on a registrar -/

/-- C1 at an input with a repeated (name, type): the zone holds `(a, A, 1.1.1.1)` and
`(a, A, 2.2.2.2)` and the input is `(a, A, 3.3.3.3)`, `(a, A, 4.4.4.4)`.  For the first
input record both existing records are deleted; for the second the same ids, taken from the
listing fetched at the start, are deleted again, the registrar answers `404`, and
`SetRecords` returns no record and an error, leaving nothing under `(a, A)`.  With the
single input `(a, A, 3.3.3.3)` the zone ends with exactly that record and the input is
returned. -/
theorem SetRecords_repeated_name_type :
    (SetRecords registrarDo RelativeNameV1 id "example.com."
        [(⟨"A", "a", "3.3.3.3", 0⟩ : RR), ⟨"A", "a", "4.4.4.4", 0⟩]
        (start exampleRegistrar)).1 =
      ([], some "failed to delete DNS record: 404 Not Found") ∧
    (SetRecords registrarDo RelativeNameV1 id "example.com."
        [(⟨"A", "a", "3.3.3.3", 0⟩ : RR), ⟨"A", "a", "4.4.4.4", 0⟩]
        (start exampleRegistrar)).2.world.records = [] ∧
    (SetRecords registrarDo RelativeNameV1 id "example.com."
        [(⟨"A", "a", "3.3.3.3", 0⟩ : RR), ⟨"A", "a", "4.4.4.4", 0⟩]
        (start exampleRegistrar)).2.log.map Prod.fst =
      [Request.listDomains, Request.listRecords 7, Request.deleteRecord 7 1,
        Request.deleteRecord 7 2, Request.deleteRecord 7 1] ∧
    (SetRecords registrarDo RelativeNameV1 id "example.com."
        [(⟨"A", "a", "3.3.3.3", 0⟩ : RR)] (start exampleRegistrar)).1 =
      ([⟨"A", "a", "3.3.3.3", 0⟩], none) ∧
    (SetRecords registrarDo RelativeNameV1 id "example.com."
        [(⟨"A", "a", "3.3.3.3", 0⟩ : RR)] (start exampleRegistrar)).2.world.records =
      [⟨3, "a", "A", "3.3.3.3", 3600⟩] := by
  decide

end Domeneshop
